import Mathlib

/-!
Shallow embedding of the pylean runtime (src/pylean/lean.py and
src/pylean/env.py).

Python dictionaries are modelled as association lists with in-place update
(`aset`) and first-match lookup (`aget`), matching Python insertion-order
semantics.  JSON scalar reply fields are modelled by `JVal` (null, string or
number), since the external process may return identifiers as either strings
or numbers.  Python exceptions are modelled by `LeanErr` values; an operation
returns the exception together with the runtime state as mutated up to the
raise point.  The transport is modelled by a queue of pending input lines and
a log of written command strings; reading from an exhausted queue stands for
the read timeout expiring.
-/

/-- JSON scalar values as they appear in decoded replies of the external
process. -/
inductive JVal where
  | null
  | jstr (s : String)
  | jint (n : Int)
deriving DecidableEq, Repr

/-- Decimal digit-string parse (the core of Python `int(str)`): all characters
must be digits.  (Surrounding whitespace, accepted by Python, is not modelled;
no input used in this development carries whitespace.) -/
def decDigits (cs : List Char) : Option Nat :=
  match cs with
  | [] => none
  | _ => if cs.all (fun c => c.isDigit)
         then some (cs.foldl (fun a c => a * 10 + (c.toNat - 48)) 0)
         else none

/-- Python `int(s)` for a string: optional sign followed by decimal digits. -/
def pyIntOfString (s : String) : Option Int :=
  match s.data with
  | '-' :: rest => (decDigits rest).map (fun n => -(n : Int))
  | '+' :: rest => (decDigits rest).map (fun n => (n : Int))
  | l => (decDigits l).map (fun n => (n : Int))

/-- Python exceptions raised by the runtime, as values. -/
inductive LeanErr where
  | keyError
  | typeError
  | valueError
  | assertionError
  | protocolError
  | timeout (msg : String)
  | runtimeError (v : JVal)
deriving DecidableEq, Repr

/-- Python `int(x)` on a decoded JSON value: numbers pass through, strings are
parsed (ValueError on failure), null raises TypeError. -/
def pyIntE (v : JVal) : Except LeanErr Int :=
  match v with
  | .jint n => .ok n
  | .jstr s =>
    match pyIntOfString s with
    | some n => .ok n
    | none => .error .valueError
  | .null => .error .typeError

/-- A decoded reply object.  Fields that are absent in the wire object are
modelled as `JVal.null` (the code only ever tests them against `None` or
parses them). -/
structure Reply where
  error : JVal
  search_id : JVal
  tactic_state : JVal
  tactic_state_id : JVal
deriving DecidableEq, Repr

/-- One line in the message queue: either a diagnostic line containing the
substring `warning:` (not valid JSON) or a decoded JSON reply. -/
inductive Line where
  | warn
  | msg (r : Reply)
deriving DecidableEq, Repr

/-- Association-list lookup: first entry with the given key (Python `d[k]`,
returning `none` for a KeyError). -/
def aget {α β : Type} [DecidableEq α] (l : List (α × β)) (k : α) : Option β :=
  match l with
  | [] => none
  | (k0, v0) :: rest => if k0 = k then some v0 else aget rest k

/-- Association-list store (Python `d[k] = v`): replace the first entry with
this key in place, or append a new entry at the end. -/
def aset {α β : Type} [DecidableEq α] (l : List (α × β)) (k : α) (v : β) :
    List (α × β) :=
  match l with
  | [] => [(k, v)]
  | (k0, v0) :: rest => if k0 = k then (k0, v) :: rest else (k0, v0) :: aset rest k v

/-- Association-list delete (Python `del d[k]`): drop the first entry with
this key. -/
def adel {α β : Type} [DecidableEq α] (l : List (α × β)) (k : α) :
    List (α × β) :=
  match l with
  | [] => []
  | (k0, v0) :: rest => if k0 = k then rest else (k0, v0) :: adel rest k

/-- Values stored under the string keys of a proof-state node dictionary:
`id_prev` holds a list of ints, `state` holds the reply's `tactic_state`
value, and `tactic_to_next_id` holds a tactic-to-state-id map. -/
inductive PVal where
  | ints (l : List Int)
  | jv (v : JVal)
  | tmap (m : List (String × Int))
deriving DecidableEq, Repr

/-- A proof-state node: the Python dict with keys `id_prev`, `state`,
`tactic_to_next_id`. -/
abbrev Node := List (String × PVal)

/-- One proof-search session (`self.proof_searchs[search_id]`). -/
structure Session where
  decl : String
  states : List (Int × Node)
  n_failed_tactics : Nat
  n_total_tactics : Nat
  failed_tactics : List (String × JVal)
deriving DecidableEq, Repr

/-- The runtime instance state: the session store, the replay-history set
`_hist`, the pending message queue, and the log of lines written to the
external process. -/
structure RState where
  proof_searchs : List (Int × Session)
  hist : List (Int × Int × String)
  queue : List Line
  writes : List String
deriving DecidableEq, Repr

/-- Ghost per-session counter of completed success-branch executions of
`update_proof_search` (used only to state the counter invariant; it is not
program state). -/
def Cnt : Type := Int → Nat

/-- The all-zero ghost counter. -/
def czero : Cnt := fun _ => 0

/-- Pointwise ghost-counter update. -/
def setc (c : Cnt) (sid : Int) (n : Nat) : Cnt :=
  fun j => if j = sid then n else c j

/-- Python set `add` on `_hist` (order of the model list is irrelevant; only
membership is ever consulted). -/
def hinsert (h : List (Int × Int × String)) (x : Int × Int × String) :
    List (Int × Int × String) :=
  if x ∈ h then h else h ++ [x]

/-- The wire string of a `run_tac` command. -/
def runTacCmd (search_id state_id : Int) (tactic : String) : String :=
  "[\"run_tac\",[\"" ++ toString search_id ++ "\",\"" ++ toString state_id ++
    "\",\"" ++ tactic ++ "\"]]\n"

/-- The wire string of an `init_search` command. -/
def initSearchCmd (decl : String) : String :=
  "[\"init_search\", [\"" ++ decl ++ "\", \"\"]]\n"

/-- The wire string of a `clear_search` command. -/
def clearSearchCmd (search_id : Int) : String :=
  "[\"clear_search\",[\"" ++ toString search_id ++ "\"]]\n"

/-- `get_result`: pull the next queued line and decode it.  An exhausted
queue stands for `_get_message` timing out, which raises
`queue.Empty("Command time out")`; a `warning:` line fails `json.loads`.
Returns the decoded reply (or the exception) together with the remaining
queue. -/
def getResult (q : List Line) : Except LeanErr Reply × List Line :=
  match q with
  | [] => (.error (.timeout "Command time out"), [])
  | .warn :: rest => (.error .protocolError, rest)
  | .msg r :: rest => (.ok r, rest)

/-- The `init_search` handshake read: skip lines containing `warning:` and
return the first non-warning line decoded. -/
def skipWarnings (q : List Line) : Except LeanErr Reply × List Line :=
  match q with
  | [] => (.error (.timeout "Command time out"), [])
  | .warn :: rest => skipWarnings rest
  | .msg r :: rest => (.ok r, rest)

/-- `LeanInstance.update_proof_search` (lean.py lines 158-179), with the
ghost success counter threaded through.  On the success branch the mutations
happen in source order; an exception raised after the first mutation (only
possible on a malformed node) returns the state as mutated so far, matching
the in-place Python dictionary updates.  The ghost counter is bumped exactly
when the success branch runs to completion. -/
def updateProofSearch (st : RState) (c : Cnt) (search_id state_id_previous : Int)
    (tactic : String) (result : Reply) : Option LeanErr × RState × Cnt :=
  if result.error = JVal.null then
    -- state_id = int(result['tactic_state_id'])
    match pyIntE result.tactic_state_id with
    | .error e => (some e, st, c)
    | .ok state_id =>
      -- states = self.proof_searchs[search_id]['states']
      match aget st.proof_searchs search_id with
      | none => (some .keyError, st, c)
      | some sess =>
        -- states[state_id_previous]['tactic_to_next_id'][tactic] = state_id
        match aget sess.states state_id_previous with
        | none => (some .keyError, st, c)
        | some nodePrev =>
          match aget nodePrev "tactic_to_next_id" with
          | none => (some .keyError, st, c)
          | some (PVal.ints _) => (some .typeError, st, c)
          | some (PVal.jv _) => (some .typeError, st, c)
          | some (PVal.tmap m) =>
            let states1 := aset sess.states state_id_previous
              (aset nodePrev "tactic_to_next_id" (PVal.tmap (aset m tactic state_id)))
            -- if not state_id in states: create; else append to id_prev
            match aget states1 state_id with
            | none =>
              let node0 : Node := [("id_prev", PVal.ints [state_id_previous]),
                                   ("tactic_to_next_id", PVal.tmap [])]
              let states2 := aset states1 state_id node0
              -- states[state_id]['state'] = result['tactic_state']
              let states3 := aset states2 state_id
                (aset node0 "state" (PVal.jv result.tactic_state))
              let sess1 := { sess with states := states3,
                                       n_total_tactics := sess.n_total_tactics + 1 }
              (none,
               { st with proof_searchs := aset st.proof_searchs search_id sess1,
                         hist := hinsert st.hist (search_id, state_id_previous, tactic) },
               setc c search_id (c search_id + 1))
            | some node =>
              match aget node "id_prev" with
              | none =>
                let sess1 := { sess with states := states1 }
                (some .keyError,
                 { st with proof_searchs := aset st.proof_searchs search_id sess1 }, c)
              | some (PVal.jv _) =>
                let sess1 := { sess with states := states1 }
                (some .typeError,
                 { st with proof_searchs := aset st.proof_searchs search_id sess1 }, c)
              | some (PVal.tmap _) =>
                let sess1 := { sess with states := states1 }
                (some .typeError,
                 { st with proof_searchs := aset st.proof_searchs search_id sess1 }, c)
              | some (PVal.ints l) =>
                let node1 := aset node "id_prev" (PVal.ints (l ++ [state_id_previous]))
                let states2 := aset states1 state_id node1
                let states3 := aset states2 state_id
                  (aset node1 "state" (PVal.jv result.tactic_state))
                let sess1 := { sess with states := states3,
                                         n_total_tactics := sess.n_total_tactics + 1 }
                (none,
                 { st with proof_searchs := aset st.proof_searchs search_id sess1,
                           hist := hinsert st.hist (search_id, state_id_previous, tactic) },
                 setc c search_id (c search_id + 1))
  else
    -- failure: bump counters, record error text; never touch states
    match aget st.proof_searchs search_id with
    | none => (some .keyError, st, c)
    | some sess =>
      let sess1 :=
        { sess with n_failed_tactics := sess.n_failed_tactics + 1,
                    failed_tactics := aset sess.failed_tactics tactic result.error,
                    n_total_tactics := sess.n_total_tactics + 1 }
      (none,
       { st with proof_searchs := aset st.proof_searchs search_id sess1 },
       c)

/-- `LeanInstance._cached_result` (lean.py lines 181-192).  The entry assert
holds at the single call site; a missing session or state key is a KeyError.
The synthesized reply carries the stored integer ids and the stored state
text. -/
def cachedResult (st : RState) (search_id state_id : Int) (tactic : String) :
    Except LeanErr Reply :=
  match aget st.proof_searchs search_id with
  | none => .error .keyError
  | some sess =>
    match aget sess.states state_id with
    | none => .error .keyError
    | some node =>
      match aget node "tactic_to_next_id" with
      | none => .error .keyError
      | some (PVal.tmap m) =>
        match aget m tactic with
        | none => .error .keyError
        | some id_next =>
          match aget sess.states id_next with
          | none => .error .keyError
          | some nodeNext =>
            match aget nodeNext "state" with
            | none => .error .keyError
            | some (PVal.jv v) =>
              .ok { error := JVal.null, search_id := JVal.jint search_id,
                    tactic_state := v, tactic_state_id := JVal.jint id_next }
            | some _ => .error .typeError
      | some _ => .error .typeError

/-- `LeanInstance.run_stmt` (lean.py lines 79-91): consult `_hist` first; on
a hit return the locally synthesized reply without touching the transport;
otherwise write the command, read one reply and update the session. -/
def runStmt (st : RState) (c : Cnt) (search_id state_id : Int) (tactic : String) :
    Except LeanErr Reply × RState × Cnt :=
  if (search_id, state_id, tactic) ∈ st.hist then
    (cachedResult st search_id state_id tactic, st, c)
  else
    let st1 := { st with writes := st.writes ++ [runTacCmd search_id state_id tactic] }
    match getResult st1.queue with
    | (.error e, q1) => (.error e, { st1 with queue := q1 }, c)
    | (.ok r, q1) =>
      let st2 := { st1 with queue := q1 }
      match updateProofSearch st2 c search_id state_id tactic r with
      | (some e, st3, c3) => (.error e, st3, c3)
      | (none, st3, c3) => (.ok r, st3, c3)

/-- `LeanInstance.init_search` (lean.py lines 44-77): send the command, read
past interleaved warning lines, and on a reply without error parse both ids
with `int` and create the session with a single root state and zero
counters.  The ghost counter for a freshly created session is reset. -/
def initSearch (st : RState) (c : Cnt) (decl : String) :
    Except LeanErr Reply × RState × Cnt :=
  let st1 := { st with writes := st.writes ++ [initSearchCmd decl] }
  match skipWarnings st1.queue with
  | (.error e, q1) => (.error e, { st1 with queue := q1 }, c)
  | (.ok r, q1) =>
    let st2 := { st1 with queue := q1 }
    if r.error = JVal.null then
      match pyIntE r.search_id with
      | .error e => (.error e, st2, c)
      | .ok sid =>
        match pyIntE r.tactic_state_id with
        | .error e => (.error e, st2, c)
        | .ok tsid =>
          let sess : Session :=
            { decl := decl,
              states := [(tsid, [("id_prev", PVal.ints []),
                                 ("state", PVal.jv r.tactic_state),
                                 ("tactic_to_next_id", PVal.tmap [])])],
              n_failed_tactics := 0,
              n_total_tactics := 0,
              failed_tactics := [] }
          (.ok r,
           { st2 with proof_searchs := aset st2.proof_searchs sid sess },
           setc c sid 0)
    else
      (.ok r, st2, c)

/-- Whether a reply is the terminal marker of the `clear_search` drain loop:
`error`, `tactic_state` and `tactic_state_id` all null. -/
def IsTerminal (r : Reply) : Prop :=
  r.error = JVal.null ∧ r.tactic_state = JVal.null ∧ r.tactic_state_id = JVal.null

instance (r : Reply) : Decidable (IsTerminal r) := by
  unfold IsTerminal; infer_instance

/-- The `clear_search` drain loop (lean.py lines 126-133): read replies until
one with error, tactic_state and tactic_state_id all null is observed. -/
def drainClear (q : List Line) : Except LeanErr Reply × List Line :=
  match q with
  | [] => (.error (.timeout "Command time out"), [])
  | .warn :: rest => (.error .protocolError, rest)
  | .msg r :: rest =>
    if IsTerminal r then (.ok r, rest) else drainClear rest

/-- `LeanInstance.clear_search` (lean.py lines 124-145): send the command,
drain until the terminal marker, raise RuntimeError if the terminal reply
carries an error (before any deletion), else delete the session (KeyError if
it is not in the store). -/
def clearSearch (st : RState) (search_id : Int) : Except LeanErr Reply × RState :=
  let st1 := { st with writes := st.writes ++ [clearSearchCmd search_id] }
  match drainClear st1.queue with
  | (.error e, q1) => (.error e, { st1 with queue := q1 })
  | (.ok r, q1) =>
    let st2 := { st1 with queue := q1 }
    if r.error = JVal.null then
      match aget st2.proof_searchs search_id with
      | none => (.error .keyError, st2)
      | some _ =>
        (.ok r, { st2 with proof_searchs := adel st2.proof_searchs search_id })
    else
      (.error (.runtimeError r.error), st2)

/-- Python `zip` over the three argument lists of `run_batch` (truncates to
the shortest). -/
def zip3 : List Int → List Int → List String → List (Int × Int × String)
  | s :: ss, t :: ts, a :: more => (s, t, a) :: zip3 ss ts more
  | _, _, _ => []

/-- The send loop of `run_batch` (lean.py lines 106-109): write one `run_tac`
command per triple and build the correlation map from session id to the
`(state_id, tactic)` sent for it (insertion order, keys distinct by the
entry assert). -/
def sendCmds (st : RState) (l : List (Int × Int × String)) :
    RState × List (Int × (Int × String)) :=
  match l with
  | [] => (st, [])
  | (s, t, tac) :: rest =>
    let st1 := { st with writes := st.writes ++ [runTacCmd s t tac] }
    let (st2, m) := sendCmds st1 rest
    (st2, (s, (t, tac)) :: m)

/-- The reply loop of `run_batch` (lean.py lines 111-118): read `n` replies;
a reply with a non-null `search_id` is correlated through the map, applied
via `update_proof_search`, consumed from the map and recorded in the output;
a reply with null `search_id` is dropped.  An exception aborts the loop with
the state mutated so far. -/
def batchLoop (st : RState) (c : Cnt) (n : Nat)
    (m : List (Int × (Int × String))) (out : List (Int × Option Reply)) :
    Option LeanErr × RState × Cnt × List (Int × (Int × String)) ×
      List (Int × Option Reply) :=
  match n with
  | 0 => (none, st, c, m, out)
  | n + 1 =>
    match getResult st.queue with
    | (.error e, q1) => (some e, { st with queue := q1 }, c, m, out)
    | (.ok r, q1) =>
      let st1 := { st with queue := q1 }
      if r.search_id = JVal.null then
        batchLoop st1 c n m out
      else
        match pyIntE r.search_id with
        | .error e => (some e, st1, c, m, out)
        | .ok sid =>
          match aget m sid with
          | none => (some .keyError, st1, c, m, out)
          | some (st_before, tac) =>
            match updateProofSearch st1 c sid st_before tac r with
            | (some e, st2, c2) => (some e, st2, c2, m, out)
            | (none, st2, c2) =>
              batchLoop st2 c2 n (adel m sid) (aset out sid (some r))

/-- The fallback loop of `run_batch` (lean.py lines 119-121): every session
id left unmatched gets its failed and total counters bumped (no state
mutation, no `failed_tactics` entry). -/
def bumpLeftovers (st : RState) (m : List (Int × (Int × String))) :
    Option LeanErr × RState :=
  match m with
  | [] => (none, st)
  | (sid, _) :: rest =>
    match aget st.proof_searchs sid with
    | none => (some .keyError, st)
    | some sess =>
      let sess1 := { sess with n_failed_tactics := sess.n_failed_tactics + 1,
                               n_total_tactics := sess.n_total_tactics + 1 }
      bumpLeftovers
        { st with proof_searchs := aset st.proof_searchs sid sess1 } rest

/-- `LeanInstance.run_batch` (lean.py lines 93-122): assert the session ids
are pairwise distinct, pipeline all commands, then read exactly
`search_ids.length` replies correlating by the session id each carries, and
treat every unmatched session as a failed application. -/
def runBatch (st : RState) (c : Cnt) (search_ids state_ids : List Int)
    (tactics : List String) :
    Except LeanErr (List (Int × Option Reply)) × RState × Cnt :=
  if search_ids.Nodup then
    let (st1, m) := sendCmds st (zip3 search_ids state_ids tactics)
    let out0 := m.map (fun p => (p.1, (none : Option Reply)))
    match batchLoop st1 c search_ids.length m out0 with
    | (some e, st2, c2, _, _) => (.error e, st2, c2)
    | (none, st2, c2, m2, out) =>
      match bumpLeftovers st2 m2 with
      | (some e, st3) => (.error e, st3, c2)
      | (none, st3) => (.ok out, st3, c2)
  else
    (.error .assertionError, st, c)

/-- `LeanInstance.get_tactic_after` (lean.py lines 154-156): reads the
`id_next` key of the state's node (a key this runtime never writes) and then
the `tactic` key of the successor node.  A missing key is a KeyError. -/
def getTacticAfter (st : RState) (search_id state_id : Int) :
    Except LeanErr PVal :=
  match aget st.proof_searchs search_id with
  | none => .error .keyError
  | some sess =>
    match aget sess.states state_id with
    | none => .error .keyError
    | some node =>
      match aget node "id_next" with
      | none => .error .keyError
      | some (PVal.jv (JVal.jint id_next)) =>
        match aget sess.states id_next with
        | none => .error .keyError
        | some node2 =>
          match aget node2 "tactic" with
          | none => .error .keyError
          | some pv => .ok pv
      | some _ => .error .typeError

/-- The observation produced by the env-level cache path (reward and done
are the two `float(text == "no goals")` values, modelled as Booleans). -/
structure Obs where
  id_next : Int
  text : PVal
  reward : Bool
  done : Bool
deriving DecidableEq, Repr

/-- `LeanEnv._observation_from_cache` (env.py lines 144-164): if the state id
is absent the function returns the all-None tuple (modelled `none`); if it is
present, the short-circuit `and` goes on to read the node's `tactic` key
(never written by this runtime), so a missing key is a KeyError. -/
def obsFromCache (st : RState) (search_id state_id : Int) (tactic : String) :
    Except LeanErr (Option Obs) :=
  match aget st.proof_searchs search_id with
  | none => .error .keyError
  | some sess =>
    match aget sess.states state_id with
    | none => .ok none
    | some node =>
      match aget node "tactic" with
      | none => .error .keyError
      | some pv =>
        if pv = PVal.jv (JVal.jstr tactic) then
          match aget node "id_next" with
          | none => .error .keyError
          | some (PVal.jv (JVal.jint id_next)) =>
            match aget sess.states id_next with
            | none => .error .keyError
            | some node2 =>
              match aget node2 "state" with
              | none => .error .keyError
              | some text =>
                .ok (some { id_next := id_next, text := text,
                            reward := text = PVal.jv (JVal.jstr "no goals"),
                            done := text = PVal.jv (JVal.jstr "no goals") })
          | some _ => .error .typeError
        else
          .ok none

/-- One call of the public runtime surface, with the replies drawn from the
instance's pending queue. -/
inductive Op where
  | initS (decl : String)
  | runS (search_id state_id : Int) (tactic : String)
  | runB (search_ids state_ids : List Int) (tactics : List String)
  | clearS (search_id : Int)

/-- Apply one operation, keeping the (possibly exceptional) resulting state
and ghost counter. -/
def opStep (st : RState) (c : Cnt) : Op → RState × Cnt
  | .initS d => let z := initSearch st c d; (z.2.1, z.2.2)
  | .runS sid stid tac => let z := runStmt st c sid stid tac; (z.2.1, z.2.2)
  | .runB a b t => let z := runBatch st c a b t; (z.2.1, z.2.2)
  | .clearS sid => let z := clearSearch st sid; (z.2, c)

/-- Run a sequence of operations. -/
def execOps (st : RState) (c : Cnt) : List Op → RState × Cnt
  | [] => (st, c)
  | op :: ops =>
    let z := opStep st c op
    execOps z.1 z.2 ops

/-- A fresh runtime instance with a given pending input queue: no sessions,
empty history, nothing written yet. -/
def mkInit (q : List Line) : RState :=
  { proof_searchs := [], hist := [], queue := q, writes := [] }

/-- Well-formedness of a proof-state node: exactly the keys this runtime
writes (`id_prev`, `state`, `tactic_to_next_id`), with payloads of the
stored shapes. -/
def NodeWF (n : Node) : Prop :=
  (∀ k ∈ n.map Prod.fst, k = "id_prev" ∨ k = "state" ∨ k = "tactic_to_next_id") ∧
  (∃ l, aget n "id_prev" = some (PVal.ints l)) ∧
  (∃ v, aget n "state" = some (PVal.jv v)) ∧
  (∃ m, aget n "tactic_to_next_id" = some (PVal.tmap m))

/-- All nodes of a session are well-formed. -/
def SessWF (s : Session) : Prop := ∀ p ∈ s.states, NodeWF p.2

/-- Store invariant: session keys are distinct, all nodes are well-formed,
and every session's total counter equals its failed counter plus the ghost
success count. -/
def InvPS (l : List (Int × Session)) (c : Cnt) : Prop :=
  (l.map Prod.fst).Nodup ∧
  (∀ p ∈ l, SessWF p.2) ∧
  (∀ p ∈ l, p.2.n_total_tactics = p.2.n_failed_tactics + c p.1)

/-- Runtime invariant: the store invariant on the session map. -/
def RInv (st : RState) (c : Cnt) : Prop := InvPS st.proof_searchs c

def C8r0 : Reply :=
  { error := JVal.null, search_id := JVal.jstr "0",
    tactic_state := JVal.jstr "⊢ P", tactic_state_id := JVal.jstr "0" }

def C8r1 : Reply :=
  { error := JVal.null, search_id := JVal.jstr "0",
    tactic_state := JVal.jstr "Q", tactic_state_id := JVal.jstr "1" }

def C8rf : Reply :=
  { error := JVal.jstr "tactic failed", search_id := JVal.jstr "0",
    tactic_state := JVal.null, tactic_state_id := JVal.null }

def C8q : List Line := [Line.msg C8r0, Line.msg C8r1, Line.msg C8rf]

def C8ops : List Op :=
  [Op.initS "thm1", Op.runS 0 0 "t", Op.runS 0 1 "bad", Op.runS 0 0 "t"]

def C8sess : Session :=
  { decl := "thm1",
    states := [(0, [("id_prev", PVal.ints []),
                    ("state", PVal.jv (JVal.jstr "⊢ P")),
                    ("tactic_to_next_id", PVal.tmap [("t", 1)])]),
               (1, [("id_prev", PVal.ints [0]),
                    ("tactic_to_next_id", PVal.tmap []),
                    ("state", PVal.jv (JVal.jstr "Q"))])],
    n_failed_tactics := 1,
    n_total_tactics := 2,
    failed_tactics := [("bad", JVal.jstr "tactic failed")] }

def C9r0 : Reply :=
  { error := JVal.null, search_id := JVal.jstr "0",
    tactic_state := JVal.jstr "⊢ P", tactic_state_id := JVal.jstr "0" }

def C9q : List Line := [Line.msg C9r0]

def C9ops : List Op := [Op.initS "thm1"]

def C9sess : Session :=
  { decl := "thm1",
    states := [(0, [("id_prev", PVal.ints []),
                    ("state", PVal.jv (JVal.jstr "⊢ P")),
                    ("tactic_to_next_id", PVal.tmap [])])],
    n_failed_tactics := 0,
    n_total_tactics := 0,
    failed_tactics := [] }

def C1failReply : Reply :=
  { error := JVal.jstr "boom", search_id := JVal.null,
    tactic_state := JVal.null, tactic_state_id := JVal.null }

def C1sess : Session :=
  { decl := "thm", states := [], n_failed_tactics := 0,
    n_total_tactics := 0, failed_tactics := [] }

def C1st : RState :=
  { proof_searchs := [(5, C1sess)], hist := [],
    queue := [Line.msg C1failReply], writes := [] }

def C1wTerm : Reply :=
  { error := JVal.null, search_id := JVal.null,
    tactic_state := JVal.null, tactic_state_id := JVal.null }

def C1wSt : RState :=
  { proof_searchs := [(7, C1sess)], hist := [],
    queue := [Line.msg C1wTerm], writes := [] }

def C6r : Reply :=
  { error := JVal.null, search_id := JVal.jstr "abc",
    tactic_state := JVal.jstr "⊢ P", tactic_state_id := JVal.jstr "0" }

def C6wr : Reply :=
  { error := JVal.null, search_id := JVal.jstr "zz",
    tactic_state := JVal.jstr "g", tactic_state_id := JVal.jstr "0" }

def C6wSt : RState := mkInit [Line.msg C6wr]

def C3rInit : Reply :=
  { error := JVal.null, search_id := JVal.jstr "0",
    tactic_state := JVal.jstr "⊢ P", tactic_state_id := JVal.jstr "0" }

def C3r1 : Reply :=
  { error := JVal.null, search_id := JVal.jstr "0",
    tactic_state := JVal.jstr "Q", tactic_state_id := JVal.jstr "1" }

def C3q : List Line := [Line.msg C3rInit, Line.msg C3r1, Line.msg C3r1]

def C3ops : List Op := [Op.initS "thm1", Op.runS 0 0 "t", Op.runB [0] [0] ["t"]]

def C3sess : Session :=
  { decl := "thm1",
    states := [(0, [("id_prev", PVal.ints []),
                    ("state", PVal.jv (JVal.jstr "⊢ P")),
                    ("tactic_to_next_id", PVal.tmap [("t", 1)])]),
               (1, [("id_prev", PVal.ints [0, 0]),
                    ("tactic_to_next_id", PVal.tmap []),
                    ("state", PVal.jv (JVal.jstr "Q"))])],
    n_failed_tactics := 0,
    n_total_tactics := 2,
    failed_tactics := [] }

def C3wNode0 : Node :=
  [("id_prev", PVal.ints []), ("state", PVal.jv (JVal.jstr "⊢ P")),
   ("tactic_to_next_id", PVal.tmap [("t", 1)])]

def C3wNode1 : Node :=
  [("id_prev", PVal.ints [0]), ("tactic_to_next_id", PVal.tmap []),
   ("state", PVal.jv (JVal.jstr "Q"))]

def C3wSess : Session :=
  { decl := "thm1", states := [(0, C3wNode0), (1, C3wNode1)],
    n_failed_tactics := 0, n_total_tactics := 1, failed_tactics := [] }

def C3wSt : RState :=
  { proof_searchs := [(0, C3wSess)], hist := [(0, 0, "t")],
    queue := [], writes := [] }

instance {e a : Type} [DecidableEq e] [DecidableEq a] :
    DecidableEq (Except e a) := fun x y =>
  match x, y with
  | .error u, .error v =>
    if h : u = v then isTrue (by rw [h])
    else isFalse (fun hc => by injection hc with h2; exact h h2)
  | .ok u, .ok v =>
    if h : u = v then isTrue (by rw [h])
    else isFalse (fun hc => by injection hc with h2; exact h h2)
  | .error u, .ok v => isFalse (fun hc => by cases hc)
  | .ok u, .error v => isFalse (fun hc => by cases hc)

def C7wfail : Reply :=
  { error := JVal.jstr "unknown tactic", search_id := JVal.jstr "3",
    tactic_state := JVal.null, tactic_state_id := JVal.null }

def C7wSess : Session :=
  { decl := "d",
    states := [(0, [("id_prev", PVal.ints []),
                    ("state", PVal.jv (JVal.jstr "g")),
                    ("tactic_to_next_id", PVal.tmap [])])],
    n_failed_tactics := 0, n_total_tactics := 0, failed_tactics := [] }

def C7wSt : RState :=
  { proof_searchs := [(3, C7wSess)], hist := [], queue := [], writes := [] }

def C10sess : Session :=
  { decl := "d",
    states := [(0, [("id_prev", PVal.ints []),
                    ("state", PVal.jv (JVal.jstr "g")),
                    ("tactic_to_next_id", PVal.tmap [("t", 1)])]),
               (1, [("id_prev", PVal.ints [0]),
                    ("tactic_to_next_id", PVal.tmap []),
                    ("state", PVal.jv (JVal.jstr "no goals"))])],
    n_failed_tactics := 0, n_total_tactics := 1, failed_tactics := [] }

def C10term : Reply :=
  { error := JVal.null, search_id := JVal.null,
    tactic_state := JVal.null, tactic_state_id := JVal.null }

def C10st : RState :=
  { proof_searchs := [(0, C10sess)], hist := [(0, 0, "t")],
    queue := [Line.msg C10term], writes := [] }

def C10st2 : RState :=
  { proof_searchs := [], hist := [(0, 0, "t")],
    queue := [], writes := [clearSearchCmd 0] }

def C2r1 : Reply :=
  { error := JVal.null, search_id := JVal.jstr "0",
    tactic_state := JVal.jstr "Q", tactic_state_id := JVal.jstr "1" }

def C2sess0 : Session :=
  { decl := "thm1",
    states := [(0, [("id_prev", PVal.ints []),
                    ("state", PVal.jv (JVal.jstr "⊢ P")),
                    ("tactic_to_next_id", PVal.tmap [])])],
    n_failed_tactics := 0, n_total_tactics := 0, failed_tactics := [] }

def C2st0 : RState :=
  { proof_searchs := [(0, C2sess0)], hist := [],
    queue := [Line.msg C2r1], writes := [] }

def C2first : Except LeanErr Reply × RState × Cnt := runStmt C2st0 czero 0 0 "t"

def C2second : Except LeanErr Reply × RState × Cnt :=
  runStmt C2first.2.1 C2first.2.2 0 0 "t"

def C2sess1 : Session :=
  { decl := "thm1",
    states := [(0, [("id_prev", PVal.ints []),
                    ("state", PVal.jv (JVal.jstr "⊢ P")),
                    ("tactic_to_next_id", PVal.tmap [("t", 1)])]),
               (1, [("id_prev", PVal.ints [0]),
                    ("tactic_to_next_id", PVal.tmap []),
                    ("state", PVal.jv (JVal.jstr "Q"))])],
    n_failed_tactics := 0, n_total_tactics := 1, failed_tactics := [] }

def C2st1 : RState :=
  { proof_searchs := [(0, C2sess1)], hist := [(0, 0, "t")],
    queue := [], writes := [runTacCmd 0 0 "t"] }

def C5rA : Reply :=
  { error := JVal.jstr "tactic failed", search_id := JVal.jstr "0",
    tactic_state := JVal.null, tactic_state_id := JVal.null }

def C5rB : Reply :=
  { error := JVal.null, search_id := JVal.jstr "2",
    tactic_state := JVal.jstr "G2", tactic_state_id := JVal.jstr "5" }

def C5nodeB : Node :=
  [("id_prev", PVal.ints []), ("state", PVal.jv (JVal.jstr "G")),
   ("tactic_to_next_id", PVal.tmap [])]

def C5sessA : Session :=
  { decl := "a", states := [], n_failed_tactics := 0, n_total_tactics := 0,
    failed_tactics := [] }

def C5sessB : Session :=
  { decl := "b", states := [(0, C5nodeB)], n_failed_tactics := 0,
    n_total_tactics := 0, failed_tactics := [] }

def C5st : RState :=
  { proof_searchs := [(0, C5sessA), (2, C5sessB)], hist := [],
    queue := [Line.msg C5rA, Line.msg C5rB], writes := [] }

section AssocLemmas

variable {α β : Type} [DecidableEq α]

theorem aget_aset_self (l : List (α × β)) (k : α) (v : β) :
    aget (aset l k v) k = some v := by
  induction l with
  | nil => simp [aget, aset]
  | cons p rest ih =>
    obtain ⟨k0, v0⟩ := p
    by_cases h : k0 = k <;> simp [aget, aset, h, ih]

theorem aget_aset_ne (l : List (α × β)) (k k2 : α) (v : β) (h : k2 ≠ k) :
    aget (aset l k v) k2 = aget l k2 := by
  induction l with
  | nil => simp [aget, aset, Ne.symm h]
  | cons p rest ih =>
    obtain ⟨k0, v0⟩ := p
    by_cases h0 : k0 = k
    · subst h0
      simp [aget, aset, Ne.symm h]
    · simp [aget, aset, h0, ih]

theorem mem_aset_weak {l : List (α × β)} {k : α} {v : β} {p : α × β} :
    p ∈ aset l k v → p = (k, v) ∨ p ∈ l := by
  induction l with
  | nil =>
    intro hm
    simpa [aset] using hm
  | cons q rest ih =>
    intro hm
    obtain ⟨k0, v0⟩ := q
    by_cases h0 : k0 = k
    · subst h0
      rw [aset, if_pos rfl] at hm
      rcases List.mem_cons.mp hm with hm | hm
      · exact Or.inl hm
      · exact Or.inr (List.mem_cons_of_mem _ hm)
    · rw [aset, if_neg h0] at hm
      rcases List.mem_cons.mp hm with hm | hm
      · exact Or.inr (by simp [hm])
      · rcases ih hm with hh | hh
        · exact Or.inl hh
        · exact Or.inr (List.mem_cons_of_mem _ hh)

theorem aget_mem {l : List (α × β)} {k : α} {v : β} (h : aget l k = some v) :
    (k, v) ∈ l := by
  induction l with
  | nil => simp [aget] at h
  | cons q rest ih =>
    obtain ⟨k0, v0⟩ := q
    by_cases h0 : k0 = k
    · subst h0
      simp only [aget, if_pos rfl] at h
      obtain rfl : v0 = v := by injection h
      exact List.mem_cons_self _ _
    · simp only [aget, if_neg h0] at h
      exact List.mem_cons_of_mem _ (ih h)

theorem aget_eq_none_iff (l : List (α × β)) (k : α) :
    aget l k = none ↔ k ∉ l.map Prod.fst := by
  induction l with
  | nil => simp [aget]
  | cons q rest ih =>
    obtain ⟨k0, v0⟩ := q
    by_cases h0 : k0 = k
    · subst h0
      simp [aget]
    · simp [aget, h0, ih, Ne.symm h0]

theorem keys_aset_some {l : List (α × β)} {k : α} {w : β} (v : β)
    (h : aget l k = some w) :
    (aset l k v).map Prod.fst = l.map Prod.fst := by
  induction l with
  | nil => simp [aget] at h
  | cons q rest ih =>
    obtain ⟨k0, v0⟩ := q
    by_cases h0 : k0 = k
    · simp [aset, h0]
    · simp only [aget, if_neg h0] at h
      simp [aset, h0, ih h]

theorem keys_aset_none {l : List (α × β)} {k : α} (v : β)
    (h : aget l k = none) :
    (aset l k v).map Prod.fst = l.map Prod.fst ++ [k] := by
  induction l with
  | nil => simp [aset]
  | cons q rest ih =>
    obtain ⟨k0, v0⟩ := q
    by_cases h0 : k0 = k
    · simp [aget, h0] at h
    · simp only [aget, if_neg h0] at h
      simp [aset, h0, ih h]

theorem nodup_keys_aset {l : List (α × β)} {k : α} (v : β)
    (h : (l.map Prod.fst).Nodup) : ((aset l k v).map Prod.fst).Nodup := by
  cases hk : aget l k with
  | some w => rw [keys_aset_some v hk]; exact h
  | none =>
    rw [keys_aset_none v hk]
    have hnot : k ∉ l.map Prod.fst := (aget_eq_none_iff l k).mp hk
    simp [List.nodup_append, h, hnot]

theorem mem_aset_strong {l : List (α × β)} {k : α} {v : β} {p : α × β}
    (hnd : (l.map Prod.fst).Nodup) (hm : p ∈ aset l k v) :
    p = (k, v) ∨ (p ∈ l ∧ p.1 ≠ k) := by
  induction l with
  | nil => simpa [aset] using hm
  | cons q rest ih =>
    obtain ⟨k0, v0⟩ := q
    simp only [List.map_cons, List.nodup_cons] at hnd
    by_cases h0 : k0 = k
    · subst h0
      rw [aset, if_pos rfl] at hm
      rcases List.mem_cons.mp hm with hm | hm
      · exact Or.inl hm
      · right
        refine ⟨List.mem_cons_of_mem _ hm, ?_⟩
        intro hpk
        exact hnd.1 (hpk ▸ (List.mem_map_of_mem Prod.fst hm))
    · rw [aset, if_neg h0] at hm
      rcases List.mem_cons.mp hm with hm | hm
      · right
        constructor
        · simp [hm]
        · rw [hm]
          simpa using h0
      · rcases ih hnd.2 hm with hh | hh
        · exact Or.inl hh
        · exact Or.inr ⟨List.mem_cons_of_mem _ hh.1, hh.2⟩

theorem adel_sublist (l : List (α × β)) (k : α) : (adel l k).Sublist l := by
  induction l with
  | nil => simp [adel]
  | cons q rest ih =>
    obtain ⟨k0, v0⟩ := q
    by_cases h0 : k0 = k
    · rw [adel, if_pos h0]
      exact List.sublist_cons_self (k0, v0) rest
    · simpa [adel, h0] using ih.cons₂ (k0, v0)

theorem mem_adel {l : List (α × β)} {k : α} {p : α × β} (h : p ∈ adel l k) :
    p ∈ l := (adel_sublist l k).mem h

theorem nodup_keys_adel {l : List (α × β)} (k : α)
    (h : (l.map Prod.fst).Nodup) : ((adel l k).map Prod.fst).Nodup :=
  ((adel_sublist l k).map Prod.fst).nodup h

theorem aget_adel_ne (l : List (α × β)) (k k2 : α) (h : k2 ≠ k) :
    aget (adel l k) k2 = aget l k2 := by
  induction l with
  | nil => simp [adel]
  | cons q rest ih =>
    obtain ⟨k0, v0⟩ := q
    by_cases h0 : k0 = k
    · subst h0
      simp [adel, aget, Ne.symm h]
    · simp [adel, aget, h0, ih]

theorem aget_adel_self {l : List (α × β)} {k : α}
    (hnd : (l.map Prod.fst).Nodup) : aget (adel l k) k = none := by
  induction l with
  | nil => simp [adel, aget]
  | cons q rest ih =>
    obtain ⟨k0, v0⟩ := q
    simp only [List.map_cons, List.nodup_cons] at hnd
    by_cases h0 : k0 = k
    · subst h0
      simp only [adel, if_pos rfl]
      rw [aget_eq_none_iff]
      exact hnd.1
    · simp [adel, aget, h0, ih hnd.2]

end AssocLemmas

theorem nodeWF_aset_tmap {n : Node} (h : NodeWF n) (m : List (String × Int)) :
    NodeWF (aset n "tactic_to_next_id" (PVal.tmap m)) := by
  obtain ⟨hk, ⟨lp, hip⟩, ⟨v, hst⟩, ⟨m0, htm⟩⟩ := h
  refine ⟨?_, ⟨lp, ?_⟩, ⟨v, ?_⟩, ⟨m, ?_⟩⟩
  · rw [keys_aset_some _ htm]; exact hk
  · rw [aget_aset_ne _ _ _ _ (by decide)]; exact hip
  · rw [aget_aset_ne _ _ _ _ (by decide)]; exact hst
  · exact aget_aset_self _ _ _

theorem nodeWF_aset_idprev {n : Node} (h : NodeWF n) (l : List Int) :
    NodeWF (aset n "id_prev" (PVal.ints l)) := by
  obtain ⟨hk, ⟨lp, hip⟩, ⟨v, hst⟩, ⟨m0, htm⟩⟩ := h
  refine ⟨?_, ⟨l, ?_⟩, ⟨v, ?_⟩, ⟨m0, ?_⟩⟩
  · rw [keys_aset_some _ hip]; exact hk
  · exact aget_aset_self _ _ _
  · rw [aget_aset_ne _ _ _ _ (by decide)]; exact hst
  · rw [aget_aset_ne _ _ _ _ (by decide)]; exact htm

theorem nodeWF_aset_state {n : Node} (h : NodeWF n) (v : JVal) :
    NodeWF (aset n "state" (PVal.jv v)) := by
  obtain ⟨hk, ⟨lp, hip⟩, ⟨v0, hst⟩, ⟨m0, htm⟩⟩ := h
  refine ⟨?_, ⟨lp, ?_⟩, ⟨v, ?_⟩, ⟨m0, ?_⟩⟩
  · rw [keys_aset_some _ hst]; exact hk
  · rw [aget_aset_ne _ _ _ _ (by decide)]; exact hip
  · exact aget_aset_self _ _ _
  · rw [aget_aset_ne _ _ _ _ (by decide)]; exact htm

theorem nodeWF_new (lp : List Int) (v : JVal) :
    NodeWF (aset [("id_prev", PVal.ints lp), ("tactic_to_next_id", PVal.tmap [])]
      "state" (PVal.jv v)) := by
  refine ⟨?_, ⟨lp, ?_⟩, ⟨v, ?_⟩, ⟨[], ?_⟩⟩ <;> simp [aset, aget]

theorem nodeWF_root (v : JVal) :
    NodeWF [("id_prev", PVal.ints []), ("state", PVal.jv v),
            ("tactic_to_next_id", PVal.tmap [])] := by
  refine ⟨?_, ⟨[], ?_⟩, ⟨v, ?_⟩, ⟨[], ?_⟩⟩ <;> simp [aget]

theorem aset_aset_same {α β : Type} [DecidableEq α]
    (l : List (α × β)) (k : α) (v w : β) :
    aset (aset l k v) k w = aset l k w := by
  induction l with
  | nil => simp [aset]
  | cons q rest ih =>
    obtain ⟨k0, v0⟩ := q
    by_cases h0 : k0 = k <;> simp [aset, h0, ih]

theorem invPS_aset {l : List (Int × Session)} {c c2 : Cnt} {sid : Int}
    {sess : Session} (h : InvPS l c) (hs : SessWF sess)
    (hc2 : sess.n_total_tactics = sess.n_failed_tactics + c2 sid)
    (hother : ∀ j, j ≠ sid → c2 j = c j) :
    InvPS (aset l sid sess) c2 := by
  refine ⟨nodup_keys_aset _ h.1, ?_, ?_⟩
  · intro p hp
    rcases mem_aset_weak hp with rfl | hp
    · exact hs
    · exact h.2.1 p hp
  · intro p hp
    rcases mem_aset_strong h.1 hp with rfl | ⟨hp, hne⟩
    · exact hc2
    · rw [hother p.1 hne]
      exact h.2.2 p hp

theorem invPS_adel {l : List (Int × Session)} {c : Cnt} {k : Int}
    (h : InvPS l c) : InvPS (adel l k) c :=
  ⟨nodup_keys_adel k h.1,
   fun p hp => h.2.1 p (mem_adel hp),
   fun p hp => h.2.2 p (mem_adel hp)⟩

theorem sessWF_aset {s : List (Int × Node)} (hs : ∀ p ∈ s, NodeWF p.2)
    {i : Int} {n : Node} (hn : NodeWF n) : ∀ p ∈ aset s i n, NodeWF p.2 := by
  intro p hp
  rcases mem_aset_weak hp with rfl | hp
  · exact hn
  · exact hs p hp

theorem upd_fail {st : RState} {c : Cnt} {sid prev : Int} {tac : String}
    {r : Reply} {sess : Session} (hr : r.error ≠ JVal.null)
    (hs : aget st.proof_searchs sid = some sess) :
    updateProofSearch st c sid prev tac r =
      (none,
       { st with
           proof_searchs := aset st.proof_searchs sid
             ({ sess with n_failed_tactics := sess.n_failed_tactics + 1,
                          failed_tactics := aset sess.failed_tactics tac r.error,
                          n_total_tactics := sess.n_total_tactics + 1 }) },
       c) := by
  simp [updateProofSearch, hr, hs]

theorem upd_fail_nosess {st : RState} {c : Cnt} {sid prev : Int} {tac : String}
    {r : Reply} (hr : r.error ≠ JVal.null)
    (hs : aget st.proof_searchs sid = none) :
    updateProofSearch st c sid prev tac r = (some .keyError, st, c) := by
  simp [updateProofSearch, hr, hs]

theorem upd_succ_new {st : RState} {c : Cnt} {sid prev i : Int} {tac : String}
    {r : Reply} {sess : Session} {nodePrev : Node} {m : List (String × Int)}
    (hr : r.error = JVal.null)
    (hi : pyIntE r.tactic_state_id = .ok i)
    (hs : aget st.proof_searchs sid = some sess)
    (hprev : aget sess.states prev = some nodePrev)
    (htm : aget nodePrev "tactic_to_next_id" = some (PVal.tmap m))
    (hnew : aget (aset sess.states prev
      (aset nodePrev "tactic_to_next_id" (PVal.tmap (aset m tac i)))) i = none) :
    updateProofSearch st c sid prev tac r =
      (none,
       { st with
           proof_searchs := aset st.proof_searchs sid
             ({ sess with
                  states := aset (aset sess.states prev
                      (aset nodePrev "tactic_to_next_id" (PVal.tmap (aset m tac i)))) i
                    (aset [("id_prev", PVal.ints [prev]),
                           ("tactic_to_next_id", PVal.tmap [])]
                      "state" (PVal.jv r.tactic_state)),
                  n_total_tactics := sess.n_total_tactics + 1 }),
           hist := hinsert st.hist (sid, prev, tac) },
       setc c sid (c sid + 1)) := by
  simp [updateProofSearch, hr, hi, hs, hprev, htm, hnew, aset_aset_same]

theorem upd_succ_old {st : RState} {c : Cnt} {sid prev i : Int} {tac : String}
    {r : Reply} {sess : Session} {nodePrev node : Node}
    {m : List (String × Int)} {lp : List Int}
    (hr : r.error = JVal.null)
    (hi : pyIntE r.tactic_state_id = .ok i)
    (hs : aget st.proof_searchs sid = some sess)
    (hprev : aget sess.states prev = some nodePrev)
    (htm : aget nodePrev "tactic_to_next_id" = some (PVal.tmap m))
    (hold : aget (aset sess.states prev
      (aset nodePrev "tactic_to_next_id" (PVal.tmap (aset m tac i)))) i = some node)
    (hip : aget node "id_prev" = some (PVal.ints lp)) :
    updateProofSearch st c sid prev tac r =
      (none,
       { st with
           proof_searchs := aset st.proof_searchs sid
             ({ sess with
                  states := aset (aset sess.states prev
                      (aset nodePrev "tactic_to_next_id" (PVal.tmap (aset m tac i)))) i
                    (aset (aset node "id_prev" (PVal.ints (lp ++ [prev])))
                      "state" (PVal.jv r.tactic_state)),
                  n_total_tactics := sess.n_total_tactics + 1 }),
           hist := hinsert st.hist (sid, prev, tac) },
       setc c sid (c sid + 1)) := by
  simp [updateProofSearch, hr, hi, hs, hprev, htm, hold, hip, aset_aset_same]

theorem upd_inv {st : RState} {c : Cnt} {sid prev : Int} {tac : String}
    {r : Reply} {oe : Option LeanErr} {st2 : RState} {c2 : Cnt}
    (h : RInv st c)
    (he : updateProofSearch st c sid prev tac r = (oe, st2, c2)) :
    RInv st2 c2 := by
  by_cases hr : r.error = JVal.null
  · cases hi : pyIntE r.tactic_state_id with
    | error e =>
      simp [updateProofSearch, hr, hi] at he
      obtain ⟨-, rfl, rfl⟩ := he
      exact h
    | ok i =>
      cases hs : aget st.proof_searchs sid with
      | none =>
        simp [updateProofSearch, hr, hi, hs] at he
        obtain ⟨-, rfl, rfl⟩ := he
        exact h
      | some sess =>
        have hsessWF : SessWF sess := h.2.1 (sid, sess) (aget_mem hs)
        have hcnt : sess.n_total_tactics = sess.n_failed_tactics + c sid :=
          h.2.2 (sid, sess) (aget_mem hs)
        cases hprev : aget sess.states prev with
        | none =>
          simp [updateProofSearch, hr, hi, hs, hprev] at he
          obtain ⟨-, rfl, rfl⟩ := he
          exact h
        | some nodePrev =>
          have hprevWF : NodeWF nodePrev := hsessWF (prev, nodePrev) (aget_mem hprev)
          cases htm : aget nodePrev "tactic_to_next_id" with
          | none =>
            simp [updateProofSearch, hr, hi, hs, hprev, htm] at he
            obtain ⟨-, rfl, rfl⟩ := he
            exact h
          | some pv =>
            cases pv with
            | ints l0 =>
              simp [updateProofSearch, hr, hi, hs, hprev, htm] at he
              obtain ⟨-, rfl, rfl⟩ := he
              exact h
            | jv v0 =>
              simp [updateProofSearch, hr, hi, hs, hprev, htm] at he
              obtain ⟨-, rfl, rfl⟩ := he
              exact h
            | tmap m =>
              have hs1WF : ∀ p ∈ aset sess.states prev
                  (aset nodePrev "tactic_to_next_id" (PVal.tmap (aset m tac i))),
                  NodeWF p.2 :=
                sessWF_aset hsessWF (nodeWF_aset_tmap hprevWF _)
              cases hnew : aget (aset sess.states prev
                  (aset nodePrev "tactic_to_next_id" (PVal.tmap (aset m tac i)))) i with
              | none =>
                rw [upd_succ_new hr hi hs hprev htm hnew] at he
                cases he
                refine invPS_aset h ?_ ?_ ?_
                · exact sessWF_aset hs1WF (nodeWF_new [prev] r.tactic_state)
                · simp [setc]
                  omega
                · intro j hj
                  simp [setc, hj]
              | some node =>
                have hnodeWF : NodeWF node := hs1WF (i, node) (aget_mem hnew)
                obtain ⟨-, ⟨l0, h0⟩, -, -⟩ := hnodeWF
                cases hip : aget node "id_prev" with
                | none => rw [h0] at hip; cases hip
                | some pv =>
                  cases pv with
                  | jv v0 => rw [h0] at hip; simp at hip
                  | tmap m0 => rw [h0] at hip; simp at hip
                  | ints lp =>
                    rw [upd_succ_old hr hi hs hprev htm hnew hip] at he
                    cases he
                    have hnodeWF2 : NodeWF node := hs1WF (i, node) (aget_mem hnew)
                    refine invPS_aset h ?_ ?_ ?_
                    · exact sessWF_aset hs1WF
                        (nodeWF_aset_state (nodeWF_aset_idprev hnodeWF2 _) _)
                    · simp [setc]
                      omega
                    · intro j hj
                      simp [setc, hj]
  · cases hs : aget st.proof_searchs sid with
    | none =>
      rw [upd_fail_nosess hr hs] at he
      cases he
      exact h
    | some sess =>
      rw [upd_fail hr hs] at he
      cases he
      have hcnt : sess.n_total_tactics = sess.n_failed_tactics + c sid :=
        h.2.2 (sid, sess) (aget_mem hs)
      refine invPS_aset h ?_ ?_ ?_
      · exact h.2.1 (sid, sess) (aget_mem hs)
      · simpa using by omega
      · intro j hj
        rfl

theorem rinv_of_eq {st st2 : RState} {c : Cnt} (h : RInv st c)
    (hps : st2.proof_searchs = st.proof_searchs) : RInv st2 c := by
  rw [RInv, hps]
  exact h

theorem runStmt_inv {st : RState} {c : Cnt} {sid stid : Int} {tac : String}
    {res : Except LeanErr Reply} {st2 : RState} {c2 : Cnt}
    (h : RInv st c) (he : runStmt st c sid stid tac = (res, st2, c2)) :
    RInv st2 c2 := by
  rw [runStmt] at he
  by_cases hh : (sid, stid, tac) ∈ st.hist
  · rw [if_pos hh] at he
    cases he
    exact h
  · rw [if_neg hh] at he
    rcases hq : getResult st.queue with ⟨e | r, q1⟩ <;> simp [hq] at he
    · obtain ⟨-, rfl, rfl⟩ := he
      exact rinv_of_eq h rfl
    · rcases hu : updateProofSearch
        { st with writes := st.writes ++ [runTacCmd sid stid tac], queue := q1 }
        c sid stid tac r with ⟨oe, st3, c3⟩
      have hpre : RInv { st with writes := st.writes ++ [runTacCmd sid stid tac],
                                 queue := q1 } c := rinv_of_eq h rfl
      have h3 : RInv st3 c3 := upd_inv hpre hu
      cases oe <;> simp [hu] at he
      · obtain ⟨-, rfl, rfl⟩ := he
        exact h3
      · obtain ⟨-, rfl, rfl⟩ := he
        exact h3

theorem initSearch_inv {st : RState} {c : Cnt} {decl : String}
    {res : Except LeanErr Reply} {st2 : RState} {c2 : Cnt}
    (h : RInv st c) (he : initSearch st c decl = (res, st2, c2)) :
    RInv st2 c2 := by
  rw [initSearch] at he
  rcases hq : skipWarnings st.queue with ⟨e | r, q1⟩ <;> simp [hq] at he
  · obtain ⟨-, rfl, rfl⟩ := he
    exact rinv_of_eq h rfl
  · by_cases hr : r.error = JVal.null
    · simp only [if_pos hr] at he
      cases hsid : pyIntE r.search_id with
      | error e =>
        simp [hsid] at he
        obtain ⟨-, rfl, rfl⟩ := he
        exact rinv_of_eq h rfl
      | ok sid =>
        cases htsid : pyIntE r.tactic_state_id with
        | error e =>
          simp [hsid, htsid] at he
          obtain ⟨-, rfl, rfl⟩ := he
          exact rinv_of_eq h rfl
        | ok tsid =>
          simp [hsid, htsid] at he
          obtain ⟨-, rfl, rfl⟩ := he
          refine invPS_aset (rinv_of_eq h rfl) ?_ ?_ ?_
          · intro p hp
            simp only [List.mem_singleton] at hp
            subst hp
            exact nodeWF_root r.tactic_state
          · simp [setc]
          · intro j hj
            simp [setc, hj]
    · simp only [if_neg hr] at he
      obtain ⟨-, rfl, rfl⟩ := he
      exact rinv_of_eq h rfl

theorem clearSearch_inv {st : RState} {c : Cnt} {sid : Int}
    {res : Except LeanErr Reply} {st2 : RState}
    (h : RInv st c) (he : clearSearch st sid = (res, st2)) :
    RInv st2 c := by
  rw [clearSearch] at he
  rcases hq : drainClear st.queue with ⟨e | r, q1⟩ <;> simp [hq] at he
  · obtain ⟨-, rfl⟩ := he
    exact rinv_of_eq h rfl
  · by_cases hr : r.error = JVal.null
    · simp only [if_pos hr] at he
      cases hs : aget st.proof_searchs sid with
      | none =>
        simp [hs] at he
        obtain ⟨-, rfl⟩ := he
        exact rinv_of_eq h rfl
      | some sess =>
        simp [hs] at he
        obtain ⟨-, rfl⟩ := he
        exact invPS_adel (rinv_of_eq h rfl)
    · simp only [if_neg hr] at he
      obtain ⟨-, rfl⟩ := he
      exact rinv_of_eq h rfl

theorem batchLoop_inv : ∀ (n : Nat) (st : RState) (c : Cnt)
    (m : List (Int × (Int × String))) (out : List (Int × Option Reply))
    {oe : Option LeanErr} {st2 : RState} {c2 : Cnt}
    {m2 : List (Int × (Int × String))} {out2 : List (Int × Option Reply)},
    RInv st c → batchLoop st c n m out = (oe, st2, c2, m2, out2) →
    RInv st2 c2 := by
  intro n
  induction n with
  | zero =>
    intro st c m out oe st2 c2 m2 out2 h he
    rw [batchLoop] at he
    obtain ⟨-, rfl, rfl, -, -⟩ := he
    exact h
  | succ n ih =>
    intro st c m out oe st2 c2 m2 out2 h he
    rw [batchLoop] at he
    rcases hq : getResult st.queue with ⟨e | r, q1⟩ <;> simp [hq] at he
    · obtain ⟨-, rfl, rfl, -, -⟩ := he
      exact rinv_of_eq h rfl
    · by_cases hn : r.search_id = JVal.null
      · rw [if_pos hn] at he
        have hpre : RInv { st with queue := q1 } c := rinv_of_eq h rfl
        exact ih _ _ _ _ hpre he
      · rw [if_neg hn] at he
        cases hsid : pyIntE r.search_id with
        | error e =>
          simp [hsid] at he
          obtain ⟨-, rfl, rfl, -, -⟩ := he
          exact rinv_of_eq h rfl
        | ok sid =>
          cases hm : aget m sid with
          | none =>
            simp [hsid, hm] at he
            obtain ⟨-, rfl, rfl, -, -⟩ := he
            exact rinv_of_eq h rfl
          | some p =>
            obtain ⟨st_before, tac⟩ := p
            rcases hu : updateProofSearch { st with queue := q1 } c sid st_before tac r
              with ⟨ou, st3, c3⟩
            have hpre : RInv { st with queue := q1 } c := rinv_of_eq h rfl
            have h3 : RInv st3 c3 := upd_inv hpre hu
            cases ou with
            | some e =>
              simp [hsid, hm, hu] at he
              obtain ⟨-, rfl, rfl, -, -⟩ := he
              exact h3
            | none =>
              simp [hsid, hm, hu] at he
              exact ih _ _ _ _ h3 he

theorem bumpLeftovers_inv : ∀ (m : List (Int × (Int × String))) (st : RState)
    {c : Cnt} {oe : Option LeanErr} {st2 : RState},
    RInv st c → bumpLeftovers st m = (oe, st2) → RInv st2 c := by
  intro m
  induction m with
  | nil =>
    intro st c oe st2 h he
    rw [bumpLeftovers] at he
    obtain ⟨-, rfl⟩ := he
    exact h
  | cons p rest ih =>
    obtain ⟨sid, q⟩ := p
    intro st c oe st2 h he
    rw [bumpLeftovers] at he
    cases hs : aget st.proof_searchs sid with
    | none =>
      simp [hs] at he
      obtain ⟨-, rfl⟩ := he
      exact h
    | some sess =>
      simp [hs] at he
      refine ih _ ?_ he
      have hcnt : sess.n_total_tactics = sess.n_failed_tactics + c sid :=
        h.2.2 (sid, sess) (aget_mem hs)
      refine invPS_aset h ?_ ?_ ?_
      · exact h.2.1 (sid, sess) (aget_mem hs)
      · simp
        omega
      · intro j hj
        rfl

theorem sendCmds_ps : ∀ (l : List (Int × Int × String)) (st : RState),
    (sendCmds st l).1.proof_searchs = st.proof_searchs := by
  intro l
  induction l with
  | nil => intro st; rfl
  | cons p rest ih =>
    obtain ⟨s, t, tac⟩ := p
    intro st
    rw [sendCmds]
    exact ih _

theorem runBatch_inv {st : RState} {c : Cnt} {sids stids : List Int}
    {tacs : List String} {res : Except LeanErr (List (Int × Option Reply))}
    {st2 : RState} {c2 : Cnt}
    (h : RInv st c) (he : runBatch st c sids stids tacs = (res, st2, c2)) :
    RInv st2 c2 := by
  rw [runBatch] at he
  by_cases hnd : sids.Nodup
  · rw [if_pos hnd] at he
    rcases hsend : sendCmds st (zip3 sids stids tacs) with ⟨st1, m⟩
    have h1 : RInv st1 c := by
      refine rinv_of_eq h ?_
      have := sendCmds_ps (zip3 sids stids tacs) st
      rw [hsend] at this
      exact this
    rw [hsend] at he
    dsimp only at he
    rcases hb : batchLoop st1 c sids.length m (m.map fun p => (p.1, none))
      with ⟨ob, st3, c3, m3, out3⟩
    have h3 : RInv st3 c3 := batchLoop_inv _ _ _ _ _ h1 hb
    rw [hb] at he
    cases ob with
    | some e =>
      simp at he
      obtain ⟨-, rfl, rfl⟩ := he
      exact h3
    | none =>
      simp at he
      rcases hbump : bumpLeftovers st3 m3 with ⟨obp, st4⟩
      have h4 : RInv st4 c3 := bumpLeftovers_inv _ _ h3 hbump
      rw [hbump] at he
      cases obp <;> simp at he
      · obtain ⟨-, rfl, rfl⟩ := he
        exact h4
      · obtain ⟨-, rfl, rfl⟩ := he
        exact h4
  · rw [if_neg hnd] at he
    obtain ⟨-, rfl, rfl⟩ := he
    exact h

theorem opStep_inv {st : RState} {c : Cnt} (op : Op) (h : RInv st c) :
    RInv (opStep st c op).1 (opStep st c op).2 := by
  cases op with
  | initS d =>
    rcases he : initSearch st c d with ⟨res, st2, c2⟩
    have := initSearch_inv h he
    simp [opStep, he]
    exact this
  | runS sid stid tac =>
    rcases he : runStmt st c sid stid tac with ⟨res, st2, c2⟩
    have := runStmt_inv h he
    simp [opStep, he]
    exact this
  | runB a b t =>
    rcases he : runBatch st c a b t with ⟨res, st2, c2⟩
    have := runBatch_inv h he
    simp [opStep, he]
    exact this
  | clearS sid =>
    rcases he : clearSearch st sid with ⟨res, st2⟩
    have := clearSearch_inv h he
    simp [opStep, he]
    exact this

theorem execOps_inv : ∀ (ops : List Op) (st : RState) (c : Cnt), RInv st c →
    RInv (execOps st c ops).1 (execOps st c ops).2 := by
  intro ops
  induction ops with
  | nil => intro st c h; exact h
  | cons op rest ih =>
    intro st c h
    rw [execOps]
    exact ih _ _ (opStep_inv op h)

theorem mkInit_inv (q : List Line) : RInv (mkInit q) czero := by
  refine ⟨?_, ?_, ?_⟩ <;> simp [mkInit]

/-- Every state reachable from a fresh instance satisfies the runtime
invariant. -/
theorem reachable_inv (q : List Line) (ops : List Op) :
    RInv (execOps (mkInit q) czero ops).1 (execOps (mkInit q) czero ops).2 :=
  execOps_inv ops (mkInit q) czero (mkInit_inv q)

theorem aget_some_key_mem {α β : Type} [DecidableEq α] {l : List (α × β)}
    {k : α} {v : β} (h : aget l k = some v) : k ∈ l.map Prod.fst :=
  List.mem_map_of_mem Prod.fst (aget_mem h)

/-- C8: for every session in the store after any sequence of runtime
operations (run_stmt including cache hits, run_batch including its
unmatched-reply fallback, init_search, clear_search) executed from a fresh
instance, the session's total tactic counter equals its failed tactic
counter plus the number of successful edge additions performed for that
session (counting repeats), the latter recorded by the ghost counter that is
incremented exactly when the success branch of update_proof_search runs to
completion. -/
theorem C8_counter_invariant (q : List Line) (ops : List Op) (sid : Int)
    (sess : Session)
    (hs : aget (execOps (mkInit q) czero ops).1.proof_searchs sid = some sess) :
    sess.n_total_tactics =
      sess.n_failed_tactics + (execOps (mkInit q) czero ops).2 sid :=
  (reachable_inv q ops).2.2 (sid, sess) (aget_mem hs)

theorem C8_counter_invariant_witness :
    aget (execOps (mkInit C8q) czero C8ops).1.proof_searchs 0 = some C8sess ∧
    C8sess.n_total_tactics =
      C8sess.n_failed_tactics + (execOps (mkInit C8q) czero C8ops).2 0 :=
  ⟨by decide, C8_counter_invariant C8q C8ops 0 C8sess (by decide)⟩

/-- C9: in every state reachable from a fresh instance (in particular for a
session built by init_search and any sequence of successful run_stmt calls),
no state node carries the keys id_next or tactic; consequently
get_tactic_after fails with KeyError on every existing state, and the
env-level cache lookup _observation_from_cache fails with KeyError whenever
the state id is present in the session, so it can never produce an
observation. -/
theorem C9_dead_cache (q : List Line) (ops : List Op) (sid stid : Int)
    (tac : String) (sess : Session) (node : Node)
    (hs : aget (execOps (mkInit q) czero ops).1.proof_searchs sid = some sess)
    (hn : aget sess.states stid = some node) :
    aget node "id_next" = none ∧ aget node "tactic" = none ∧
    getTacticAfter (execOps (mkInit q) czero ops).1 sid stid =
      .error .keyError ∧
    obsFromCache (execOps (mkInit q) czero ops).1 sid stid tac =
      .error .keyError := by
  have hinv := reachable_inv q ops
  have hWF : NodeWF node :=
    hinv.2.1 (sid, sess) (aget_mem hs) (stid, node) (aget_mem hn)
  have hnoid : aget node "id_next" = none := by
    cases hid : aget node "id_next" with
    | none => rfl
    | some pv =>
      rcases hWF.1 _ (aget_some_key_mem hid) with h | h | h <;> simp at h
  have hnotac : aget node "tactic" = none := by
    cases hid : aget node "tactic" with
    | none => rfl
    | some pv =>
      rcases hWF.1 _ (aget_some_key_mem hid) with h | h | h <;> simp at h
  refine ⟨hnoid, hnotac, ?_, ?_⟩
  · simp [getTacticAfter, hs, hn, hnoid]
  · simp [obsFromCache, hs, hn, hnotac]

theorem C9_dead_cache_witness :
    aget (execOps (mkInit C9q) czero C9ops).1.proof_searchs 0 = some C9sess ∧
    aget C9sess.states 0 = some [("id_prev", PVal.ints []),
      ("state", PVal.jv (JVal.jstr "⊢ P")), ("tactic_to_next_id", PVal.tmap [])] ∧
    (aget ([("id_prev", PVal.ints []), ("state", PVal.jv (JVal.jstr "⊢ P")),
            ("tactic_to_next_id", PVal.tmap [])] : Node) "id_next" = none ∧
     aget ([("id_prev", PVal.ints []), ("state", PVal.jv (JVal.jstr "⊢ P")),
            ("tactic_to_next_id", PVal.tmap [])] : Node) "tactic" = none ∧
     getTacticAfter (execOps (mkInit C9q) czero C9ops).1 0 0 = .error .keyError ∧
     obsFromCache (execOps (mkInit C9q) czero C9ops).1 0 0 "t" = .error .keyError) :=
  ⟨by decide, by decide, C9_dead_cache C9q C9ops 0 0 "t" C9sess _ (by decide) (by decide)⟩

theorem drain_ok_terminal : ∀ {q : List Line} {r : Reply} {q1 : List Line},
    drainClear q = (.ok r, q1) → IsTerminal r := by
  intro q
  induction q with
  | nil => intro r q1 h; simp [drainClear] at h
  | cons l rest ih =>
    intro r q1 h
    cases l with
    | warn => simp [drainClear] at h
    | msg r0 =>
      rw [drainClear] at h
      by_cases ht : IsTerminal r0
      · rw [if_pos ht] at h
        injection h with h1 h2
        injection h1 with h1
        exact h1 ▸ ht
      · rw [if_neg ht] at h
        exact ih h

theorem drain_err_shape : ∀ {q : List Line} {e : LeanErr} {q1 : List Line},
    drainClear q = (.error e, q1) →
    e = .timeout "Command time out" ∨ e = .protocolError := by
  intro q
  induction q with
  | nil =>
    intro e q1 h
    rw [drainClear] at h
    injection h with h1 h2
    injection h1 with h1
    exact Or.inl h1.symm
  | cons l rest ih =>
    intro e q1 h
    cases l with
    | warn =>
      rw [drainClear] at h
      injection h with h1 h2
      injection h1 with h1
      exact Or.inr h1.symm
    | msg r0 =>
      rw [drainClear] at h
      by_cases ht : IsTerminal r0
      · rw [if_pos ht] at h
        injection h with h1 h2
        cases h1
      · rw [if_neg ht] at h
        exact ih h

/-- C1 counterexample: the documented failure shape of a clear_search reply
(non-null error, null state fields) never terminates the drain loop, so with
session 5 in the store and exactly that reply queued, clear_search raises the
read-timeout error (not the reply's error "boom") and the session is NOT
removed from the store — contradicting the claim that the session is removed
and the reply's error surfaced. -/
theorem C1_cex :
    (clearSearch C1st 5).1 = .error (.timeout "Command time out") ∧
    aget (clearSearch C1st 5).2.proof_searchs 5 = some C1sess :=
  ⟨rfl, rfl⟩

/-- C1 amended: a reply carrying a non-null error never exits the drain
loop, so the terminal reply observed by clear_search always has a null
error and the branch surfacing a terminal error is unreachable; whenever
clear_search returns normally the terminal reply carries no error and the
session has been removed.  When the process answers with the documented
failure shape, the call instead fails with a timeout or protocol error and
the session stays in the store (see the counterexample). -/
theorem C1_clear_teardown (st : RState) (sid : Int)
    (hnd : (st.proof_searchs.map Prod.fst).Nodup) :
    (∀ r st2, clearSearch st sid = (.ok r, st2) →
      r.error = JVal.null ∧ aget st2.proof_searchs sid = none) ∧
    (∀ e st2, clearSearch st sid ≠ (.error (.runtimeError e), st2)) := by
  have hmain : ∀ res, clearSearch st sid = res →
      (∀ r st2, res = (.ok r, st2) →
        r.error = JVal.null ∧ aget st2.proof_searchs sid = none) ∧
      (∀ e st2, res ≠ (.error (.runtimeError e), st2)) := by
    intro res hres
    rw [clearSearch] at hres
    rcases hq : drainClear st.queue with ⟨gr, q1⟩
    cases gr with
    | error e =>
      rw [hq] at hres
      dsimp only at hres
      rcases drain_err_shape hq with rfl | rfl <;>
        (subst hres
         refine ⟨?_, ?_⟩
         · intro r st2 hcon; cases hcon
         · intro e2 st2 hcon
           injection hcon with h1 h2
           injection h1 with h1
           cases h1)
    | ok r =>
      rw [hq] at hres
      dsimp only at hres
      have hterm : IsTerminal r := drain_ok_terminal hq
      rw [if_pos hterm.1] at hres
      cases hs : aget st.proof_searchs sid with
      | none =>
        rw [hs] at hres
        subst hres
        refine ⟨?_, ?_⟩
        · intro r2 st2 hcon; cases hcon
        · intro e2 st2 hcon
          injection hcon with h1 h2
          injection h1 with h1
          cases h1
      | some sess =>
        rw [hs] at hres
        subst hres
        refine ⟨?_, ?_⟩
        · intro r2 st2 hcon
          injection hcon with h1 h2
          injection h1 with h1
          subst h1
          subst h2
          refine ⟨hterm.1, ?_⟩
          exact aget_adel_self hnd
        · intro e2 st2 hcon
          cases hcon
  exact hmain (clearSearch st sid) rfl

theorem C1_clear_teardown_witness :
    ((C1wSt.proof_searchs.map Prod.fst).Nodup) ∧
    ((∀ r st2, clearSearch C1wSt 7 = (.ok r, st2) →
       r.error = JVal.null ∧ aget st2.proof_searchs 7 = none) ∧
     (∀ e st2, clearSearch C1wSt 7 ≠ (.error (.runtimeError e), st2))) :=
  ⟨by decide, C1_clear_teardown C1wSt 7 (by decide)⟩

/-- C4 counterexample: when no queued line is available, the error raised is
the constant `queue.Empty("Command time out")`: two run_stmt calls whose
last written commands differ produce the identical timeout error, and the
fixed message names no command — so the Timeout error does not carry the
last command sent. -/
theorem C4_cex :
    (runStmt (mkInit []) czero 0 0 "tacA").1 =
      .error (.timeout "Command time out") ∧
    (runStmt (mkInit []) czero 0 0 "tacB").1 =
      .error (.timeout "Command time out") ∧
    (runStmt (mkInit []) czero 0 0 "tacA").2.1.writes =
      [runTacCmd 0 0 "tacA"] ∧
    (runStmt (mkInit []) czero 0 0 "tacB").2.1.writes =
      [runTacCmd 0 0 "tacB"] ∧
    runTacCmd 0 0 "tacA" ≠ runTacCmd 0 0 "tacB" :=
  ⟨rfl, rfl, rfl, rfl, by decide⟩

/-- C4 amended: whenever no queued line arrives within the read timeout,
get_result and run_stmt fail with the Timeout error carrying the fixed
message "Command time out"; the last command sent is not attached to the
error (see the counterexample). -/
theorem C4_timeout_fixed (st : RState) (c : Cnt) (sid stid : Int)
    (tac : String) (hq : st.queue = []) (hh : (sid, stid, tac) ∉ st.hist) :
    getResult st.queue = (.error (.timeout "Command time out"), []) ∧
    (runStmt st c sid stid tac).1 = .error (.timeout "Command time out") := by
  constructor
  · rw [hq]
    rfl
  · rw [runStmt, if_neg hh]
    dsimp only
    rw [hq]
    rfl

theorem C4_timeout_fixed_witness :
    ((mkInit []).queue = [] ∧ ((0 : Int), (0 : Int), "w") ∉ (mkInit []).hist) ∧
    (getResult (mkInit []).queue = (.error (.timeout "Command time out"), []) ∧
     (runStmt (mkInit []) czero 0 0 "w").1 =
       .error (.timeout "Command time out")) :=
  ⟨⟨rfl, by decide⟩, C4_timeout_fixed (mkInit []) czero 0 0 "w" rfl (by decide)⟩

/-- C6 counterexample: when the external process returns the non-decimal
token "abc" as search_id on a successful handshake, init_search does not
treat it as an opaque token: `int("abc")` raises ValueError, the call fails
and no session is created, so the bookkeeping does not work end-to-end for
non-numeric tokens. -/
theorem C6_cex :
    (initSearch (mkInit [Line.msg C6r]) czero "thm").1 = .error .valueError ∧
    (initSearch (mkInit [Line.msg C6r]) czero "thm").2.1.proof_searchs = [] :=
  ⟨rfl, rfl⟩

/-- C6 amended: init_search and run_stmt parse the identifiers returned by
the external process with Python `int`; only decimal-numeral tokens are
supported.  A successful reply whose search_id does not parse makes
init_search raise and create no session, and a successful run_tac reply
whose tactic_state_id does not parse makes run_stmt raise. -/
theorem C6_int_parsing (st : RState) (c : Cnt) (decl : String) (r : Reply)
    (rest : List Line) (e : LeanErr)
    (hq : st.queue = Line.msg r :: rest) (hr : r.error = JVal.null)
    (hp : pyIntE r.search_id = .error e) :
    ((initSearch st c decl).1 = .error e ∧
     (initSearch st c decl).2.1.proof_searchs = st.proof_searchs) ∧
    (∀ (st2 : RState) (c2 : Cnt) (sid stid : Int) (tac : String) (r2 : Reply)
       (rest2 : List Line) (e2 : LeanErr),
      (sid, stid, tac) ∉ st2.hist → st2.queue = Line.msg r2 :: rest2 →
      r2.error = JVal.null → pyIntE r2.tactic_state_id = .error e2 →
      (runStmt st2 c2 sid stid tac).1 = .error e2) := by
  constructor
  · rw [initSearch]
    dsimp only
    rw [hq]
    rw [show skipWarnings (Line.msg r :: rest) = (.ok r, rest) from rfl]
    dsimp only
    rw [if_pos hr, hp]
    exact ⟨rfl, rfl⟩
  · intro st2 c2 sid stid tac r2 rest2 e2 hh hq2 hr2 hp2
    rw [runStmt, if_neg hh]
    dsimp only
    rw [hq2]
    rw [show getResult (Line.msg r2 :: rest2) = (.ok r2, rest2) from rfl]
    dsimp only
    rw [show updateProofSearch
        { st2 with writes := st2.writes ++ [runTacCmd sid stid tac],
                   queue := rest2 } c2 sid stid tac r2 =
      (some e2,
       { st2 with writes := st2.writes ++ [runTacCmd sid stid tac],
                  queue := rest2 }, c2) from by
      rw [updateProofSearch]
      rw [if_pos hr2, hp2]]

theorem C6_int_parsing_witness :
    (C6wSt.queue = Line.msg C6wr :: [] ∧ C6wr.error = JVal.null ∧
     pyIntE C6wr.search_id = .error .valueError) ∧
    (((initSearch C6wSt czero "d").1 = .error .valueError ∧
      (initSearch C6wSt czero "d").2.1.proof_searchs = C6wSt.proof_searchs) ∧
     (∀ (st2 : RState) (c2 : Cnt) (sid stid : Int) (tac : String) (r2 : Reply)
        (rest2 : List Line) (e2 : LeanErr),
       (sid, stid, tac) ∉ st2.hist → st2.queue = Line.msg r2 :: rest2 →
       r2.error = JVal.null → pyIntE r2.tactic_state_id = .error e2 →
       (runStmt st2 c2 sid stid tac).1 = .error e2)) :=
  ⟨⟨rfl, rfl, rfl⟩, C6_int_parsing C6wSt czero "d" C6wr [] .valueError rfl rfl rfl⟩

/-- C3 counterexample: after recording the edge (0, "t") → 1 once via
run_stmt, replaying the very same edge through run_batch (which bypasses the
cache) appends the predecessor again unconditionally: state 1's predecessor
list becomes [0, 0], a duplicate entry for an edge that was already
recorded — so the append is not idempotent. -/
theorem C3_cex :
    aget (execOps (mkInit C3q) czero C3ops).1.proof_searchs 0 = some C3sess ∧
    aget C3sess.states 1 = some [("id_prev", PVal.ints [0, 0]),
      ("tactic_to_next_id", PVal.tmap []),
      ("state", PVal.jv (JVal.jstr "Q"))] ∧
    ¬ ([(0 : Int), 0].Nodup) :=
  ⟨by decide, by decide, by decide⟩

/-- C3 amended: for a successful reply whose resulting state id already
exists in the session, update_proof_search appends the prior state id to the
existing state's predecessor list unconditionally (duplicating the entry if
this exact edge was already recorded) and overwrites the state's text with
the reply's text. -/
theorem C3_append_not_idempotent {st : RState} {c : Cnt} {sid prev i : Int}
    {tac : String} {r : Reply} {sess : Session} {nodePrev node : Node}
    {m : List (String × Int)} {lp : List Int}
    (hr : r.error = JVal.null)
    (hi : pyIntE r.tactic_state_id = .ok i)
    (hs : aget st.proof_searchs sid = some sess)
    (hprev : aget sess.states prev = some nodePrev)
    (htm : aget nodePrev "tactic_to_next_id" = some (PVal.tmap m))
    (hold : aget (aset sess.states prev
      (aset nodePrev "tactic_to_next_id" (PVal.tmap (aset m tac i)))) i =
      some node)
    (hip : aget node "id_prev" = some (PVal.ints lp)) :
    ∃ sess2 node2,
      aget (updateProofSearch st c sid prev tac r).2.1.proof_searchs sid =
        some sess2 ∧
      aget sess2.states i = some node2 ∧
      aget node2 "id_prev" = some (PVal.ints (lp ++ [prev])) ∧
      aget node2 "state" = some (PVal.jv r.tactic_state) := by
  rw [upd_succ_old hr hi hs hprev htm hold hip]
  dsimp only
  exact ⟨_, _, aget_aset_self _ _ _, aget_aset_self _ _ _,
    by rw [aget_aset_ne _ _ _ _ (by decide)]; exact aget_aset_self _ _ _,
    aget_aset_self _ _ _⟩

theorem C3_append_not_idempotent_witness :
    (C3r1.error = JVal.null ∧ pyIntE C3r1.tactic_state_id = .ok 1 ∧
     aget C3wSt.proof_searchs 0 = some C3wSess ∧
     aget C3wSess.states 0 = some C3wNode0 ∧
     aget C3wNode0 "tactic_to_next_id" = some (PVal.tmap [("t", 1)]) ∧
     aget (aset C3wSess.states 0
       (aset C3wNode0 "tactic_to_next_id" (PVal.tmap (aset [("t", 1)] "t" 1)))) 1 =
       some C3wNode1 ∧
     aget C3wNode1 "id_prev" = some (PVal.ints [0])) ∧
    (∃ sess2 node2,
      aget (updateProofSearch C3wSt czero 0 0 "t" C3r1).2.1.proof_searchs 0 =
        some sess2 ∧
      aget sess2.states 1 = some node2 ∧
      aget node2 "id_prev" = some (PVal.ints ([0] ++ [0])) ∧
      aget node2 "state" = some (PVal.jv C3r1.tactic_state)) :=
  ⟨⟨rfl, rfl, rfl, rfl, rfl, by decide, rfl⟩,
   C3_append_not_idempotent rfl rfl rfl rfl rfl
     (show aget (aset C3wSess.states 0 (aset C3wNode0 "tactic_to_next_id"
        (PVal.tmap (aset [("t", 1)] "t" 1)))) 1 = some C3wNode1 from by decide)
     rfl⟩

/-- C7: for a reply with non-null error, update_proof_search leaves the
states mapping of the session entirely unchanged and raises nothing: it only
increments the failed and total counters and records the error text under
the tactic in failed_tactics; conversely, for a successful reply (with the
ids resolved), the outgoing edge tactic → id is set on the prior state.
Thus an outgoing edge is added if and only if the reply reported success. -/
theorem C7_failure_frame {st : RState} {c : Cnt} {sid prev : Int}
    {tac : String} {r : Reply} {sess : Session}
    (hs : aget st.proof_searchs sid = some sess) :
    (r.error ≠ JVal.null →
      updateProofSearch st c sid prev tac r =
        (none,
         { st with
             proof_searchs := aset st.proof_searchs sid
               ({ sess with n_failed_tactics := sess.n_failed_tactics + 1,
                            failed_tactics := aset sess.failed_tactics tac r.error,
                            n_total_tactics := sess.n_total_tactics + 1 }) },
         c)) ∧
    (r.error = JVal.null →
      ∀ (i : Int) (nodePrev : Node) (m : List (String × Int)),
        pyIntE r.tactic_state_id = .ok i →
        aget sess.states prev = some nodePrev →
        aget nodePrev "tactic_to_next_id" = some (PVal.tmap m) →
        ∃ sess2 node2,
          aget (updateProofSearch st c sid prev tac r).2.1.proof_searchs sid =
            some sess2 ∧
          aget sess2.states prev = some node2 ∧
          aget node2 "tactic_to_next_id" = some (PVal.tmap (aset m tac i))) := by
  constructor
  · intro hr
    exact upd_fail hr hs
  · intro hr i nodePrev m hi hp htm
    cases hnew : aget (aset sess.states prev
        (aset nodePrev "tactic_to_next_id" (PVal.tmap (aset m tac i)))) i with
    | none =>
      have hne : i ≠ prev := by
        intro hh
        rw [hh, aget_aset_self] at hnew
        cases hnew
      rw [upd_succ_new hr hi hs hp htm hnew]
      dsimp only
      refine ⟨_, aset nodePrev "tactic_to_next_id" (PVal.tmap (aset m tac i)),
        aget_aset_self _ _ _, ?_, aget_aset_self _ _ _⟩
      rw [aget_aset_ne _ _ _ _ (Ne.symm hne), aget_aset_self]
    | some node =>
      cases hip : aget node "id_prev" with
      | none =>
        simp only [updateProofSearch, if_pos hr, hi, hs, hp, htm, hnew, hip]
        refine ⟨_, aset nodePrev "tactic_to_next_id" (PVal.tmap (aset m tac i)),
          aget_aset_self _ _ _, aget_aset_self _ _ _, aget_aset_self _ _ _⟩
      | some pv =>
        cases pv with
        | jv v0 =>
          simp only [updateProofSearch, if_pos hr, hi, hs, hp, htm, hnew, hip]
          refine ⟨_, aset nodePrev "tactic_to_next_id" (PVal.tmap (aset m tac i)),
            aget_aset_self _ _ _, aget_aset_self _ _ _, aget_aset_self _ _ _⟩
        | tmap m0 =>
          simp only [updateProofSearch, if_pos hr, hi, hs, hp, htm, hnew, hip]
          refine ⟨_, aset nodePrev "tactic_to_next_id" (PVal.tmap (aset m tac i)),
            aget_aset_self _ _ _, aget_aset_self _ _ _, aget_aset_self _ _ _⟩
        | ints lp =>
          rw [upd_succ_old hr hi hs hp htm hnew hip]
          dsimp only
          by_cases hpi : prev = i
          · have hnode : node =
                aset nodePrev "tactic_to_next_id" (PVal.tmap (aset m tac i)) := by
              rw [hpi, aget_aset_self] at hnew
              injection hnew with h2
              exact h2.symm
            refine ⟨_, aset (aset node "id_prev" (PVal.ints (lp ++ [prev])))
                "state" (PVal.jv r.tactic_state),
              aget_aset_self _ _ _, ?_, ?_⟩
            · rw [hpi]
              exact aget_aset_self _ _ _
            · rw [aget_aset_ne _ _ _ _ (by decide),
                  aget_aset_ne _ _ _ _ (by decide), hnode, aget_aset_self]
          · refine ⟨_, aset nodePrev "tactic_to_next_id" (PVal.tmap (aset m tac i)),
              aget_aset_self _ _ _, ?_, aget_aset_self _ _ _⟩
            rw [aget_aset_ne _ _ _ _ hpi, aget_aset_self]

theorem C7_failure_frame_witness :
    (aget C7wSt.proof_searchs 3 = some C7wSess) ∧
    ((C7wfail.error ≠ JVal.null →
      updateProofSearch C7wSt czero 3 0 "bad" C7wfail =
        (none,
         { C7wSt with
             proof_searchs := aset C7wSt.proof_searchs 3
               ({ C7wSess with
                    n_failed_tactics := C7wSess.n_failed_tactics + 1,
                    failed_tactics :=
                      aset C7wSess.failed_tactics "bad" C7wfail.error,
                    n_total_tactics := C7wSess.n_total_tactics + 1 }) },
         czero)) ∧
     (C7wfail.error = JVal.null →
      ∀ (i : Int) (nodePrev : Node) (m : List (String × Int)),
        pyIntE C7wfail.tactic_state_id = .ok i →
        aget C7wSess.states 0 = some nodePrev →
        aget nodePrev "tactic_to_next_id" = some (PVal.tmap m) →
        ∃ sess2 node2,
          aget (updateProofSearch C7wSt czero 3 0 "bad" C7wfail).2.1.proof_searchs
            3 = some sess2 ∧
          aget sess2.states 0 = some node2 ∧
          aget node2 "tactic_to_next_id" = some (PVal.tmap (aset m "bad" i)))) :=
  ⟨rfl, C7_failure_frame rfl⟩

/-- C10: a successful clear_search removes the session from the store but
leaves every entry of the replay history _hist in place; a later run_stmt on
that session id with a previously recorded (state_id, tactic) pair therefore
takes the cache path, fails with a KeyError lookup error, leaves the state
untouched and writes nothing to the transport. -/
theorem C10_stale_cache {st : RState} {sid : Int} {r : Reply} {st2 : RState}
    (hnd : (st.proof_searchs.map Prod.fst).Nodup)
    (hc : clearSearch st sid = (.ok r, st2)) :
    st2.hist = st.hist ∧ aget st2.proof_searchs sid = none ∧
    (∀ (c : Cnt) (stid : Int) (tac : String), (sid, stid, tac) ∈ st2.hist →
      runStmt st2 c sid stid tac = (.error .keyError, st2, c)) := by
  rw [clearSearch] at hc
  rcases hq : drainClear st.queue with ⟨gr, q1⟩
  rw [hq] at hc
  cases gr with
  | error e =>
    dsimp only at hc
    cases hc
  | ok rr =>
    dsimp only at hc
    have hterm := drain_ok_terminal hq
    rw [if_pos hterm.1] at hc
    cases hs : aget st.proof_searchs sid with
    | none =>
      rw [hs] at hc
      cases hc
    | some sess =>
      rw [hs] at hc
      injection hc with h1 h2
      injection h1 with h1
      subst h1
      subst h2
      refine ⟨rfl, aget_adel_self hnd, ?_⟩
      intro c stid tac hmem
      rw [runStmt, if_pos hmem]
      rw [show cachedResult
          { st with
              proof_searchs := adel st.proof_searchs sid,
              writes := st.writes ++ [clearSearchCmd sid], queue := q1 }
          sid stid tac = .error .keyError from by
        rw [cachedResult]
        rw [show aget (adel st.proof_searchs sid) sid = none from
          aget_adel_self hnd]]

theorem C10_stale_cache_witness :
    ((C10st.proof_searchs.map Prod.fst).Nodup ∧
     clearSearch C10st 0 = (.ok C10term, C10st2)) ∧
    (C10st2.hist = C10st.hist ∧ aget C10st2.proof_searchs 0 = none ∧
     (∀ (c : Cnt) (stid : Int) (tac : String), (0, stid, tac) ∈ C10st2.hist →
       runStmt C10st2 c 0 stid tac = (.error .keyError, C10st2, c))) :=
  ⟨⟨by decide, by decide⟩,
   C10_stale_cache (by decide)
     (show clearSearch C10st 0 = (.ok C10term, C10st2) from by decide)⟩

theorem mem_hinsert_self (h : List (Int × Int × String)) (x : Int × Int × String) :
    x ∈ hinsert h x := by
  rw [hinsert]
  split
  · assumption
  · exact List.mem_append_right _ (List.mem_singleton_self x)

/-- Evaluation of the cache lookup when all the involved entries are
present. -/
theorem cachedResult_eval {st : RState} {sid stid i : Int} {tac : String}
    {sess : Session} {node nodeT : Node} {mm : List (String × Int)} {v : JVal}
    (e1 : aget st.proof_searchs sid = some sess)
    (e2 : aget sess.states stid = some node)
    (e3 : aget node "tactic_to_next_id" = some (PVal.tmap mm))
    (e4 : aget mm tac = some i)
    (e5 : aget sess.states i = some nodeT)
    (e6 : aget nodeT "state" = some (PVal.jv v)) :
    cachedResult st sid stid tac =
      .ok { error := JVal.null, search_id := JVal.jint sid,
            tactic_state := v, tactic_state_id := JVal.jint i } := by
  simp [cachedResult, e1, e2, e3, e4, e5, e6]

/-- After a completed success-branch update for (sid, stid, tac), the triple
is in the history and the cache synthesizes the success reply carrying the
stored integer id and stored text. -/
theorem cached_after_update {stA : RState} {c : Cnt} {sid stid : Int}
    {tac : String} {r : Reply} {st3 : RState} {c3 : Cnt}
    (hr : r.error = JVal.null)
    (hu : updateProofSearch stA c sid stid tac r = (none, st3, c3)) :
    (sid, stid, tac) ∈ st3.hist ∧
    ∃ i, pyIntE r.tactic_state_id = .ok i ∧
      cachedResult st3 sid stid tac =
        .ok { error := JVal.null, search_id := JVal.jint sid,
              tactic_state := r.tactic_state, tactic_state_id := JVal.jint i } := by
  cases hi : pyIntE r.tactic_state_id with
  | error e => simp [updateProofSearch, hr, hi] at hu
  | ok i =>
    cases hs : aget stA.proof_searchs sid with
    | none => simp [updateProofSearch, hr, hi, hs] at hu
    | some sess =>
      cases hp : aget sess.states stid with
      | none => simp [updateProofSearch, hr, hi, hs, hp] at hu
      | some nodePrev =>
        cases htm : aget nodePrev "tactic_to_next_id" with
        | none => simp [updateProofSearch, hr, hi, hs, hp, htm] at hu
        | some pv =>
          cases pv with
          | ints l0 => simp [updateProofSearch, hr, hi, hs, hp, htm] at hu
          | jv v0 => simp [updateProofSearch, hr, hi, hs, hp, htm] at hu
          | tmap m =>
            cases hnew : aget (aset sess.states stid
                (aset nodePrev "tactic_to_next_id" (PVal.tmap (aset m tac i)))) i with
            | none =>
              have hne : i ≠ stid := by
                intro hh
                rw [hh, aget_aset_self] at hnew
                cases hnew
              rw [upd_succ_new hr hi hs hp htm hnew] at hu
              injection hu with h1 h23
              injection h23 with h2 h3
              subst h2
              refine ⟨mem_hinsert_self _ _, i, rfl, ?_⟩
              exact cachedResult_eval (aget_aset_self _ _ _)
                (by dsimp only
                    rw [aget_aset_ne _ _ _ _ (Ne.symm hne)]
                    exact aget_aset_self _ _ _)
                (aget_aset_self _ _ _) (aget_aset_self _ _ _)
                (by dsimp only
                    exact aget_aset_self _ _ _)
                (aget_aset_self _ _ _)
            | some node =>
              cases hip : aget node "id_prev" with
              | none =>
                simp [updateProofSearch, hr, hi, hs, hp, htm, hnew, hip] at hu
              | some pv2 =>
                cases pv2 with
                | jv v0 =>
                  simp [updateProofSearch, hr, hi, hs, hp, htm, hnew, hip] at hu
                | tmap m0 =>
                  simp [updateProofSearch, hr, hi, hs, hp, htm, hnew, hip] at hu
                | ints lp =>
                  rw [upd_succ_old hr hi hs hp htm hnew hip] at hu
                  injection hu with h1 h23
                  injection h23 with h2 h3
                  subst h2
                  refine ⟨mem_hinsert_self _ _, i, rfl, ?_⟩
                  by_cases hpi : stid = i
                  · have hnode : node =
                        aset nodePrev "tactic_to_next_id"
                          (PVal.tmap (aset m tac i)) := by
                      rw [hpi, aget_aset_self] at hnew
                      injection hnew with h4
                      exact h4.symm
                    exact cachedResult_eval (aget_aset_self _ _ _)
                      (by dsimp only
                          rw [hpi]
                          exact aget_aset_self _ _ _)
                      (by rw [aget_aset_ne _ _ _ _ (by decide),
                              aget_aset_ne _ _ _ _ (by decide), hnode]
                          exact aget_aset_self _ _ _)
                      (aget_aset_self _ _ _)
                      (by dsimp only
                          rw [hpi]
                          exact aget_aset_self _ _ _)
                      (aget_aset_self _ _ _)
                  · exact cachedResult_eval (aget_aset_self _ _ _)
                      (by dsimp only
                          rw [aget_aset_ne _ _ _ _ hpi]
                          exact aget_aset_self _ _ _)
                      (aget_aset_self _ _ _) (aget_aset_self _ _ _)
                      (by dsimp only
                          exact aget_aset_self _ _ _)
                      (aget_aset_self _ _ _)

/-- C2 counterexample: the wire carries the new state id as the string
token "1" (as in the spec's own scenario), so the first run_stmt returns a
reply whose tactic_state_id is the string "1", while the cached second call
synthesizes its reply from the stored parsed integer and returns
tactic_state_id 1 (a number).  Both calls succeed, but the returned
(state_id, text) pairs are not identical. -/
theorem C2_cex :
    C2first.1 = .ok C2r1 ∧
    C2second.1 = .ok { error := JVal.null, search_id := JVal.jint 0,
                       tactic_state := JVal.jstr "Q",
                       tactic_state_id := JVal.jint 1 } ∧
    C2r1.tactic_state_id ≠ JVal.jint 1 :=
  ⟨rfl, rfl, by decide⟩

/-- C2 amended: if run_stmt succeeds, an immediately repeated call with the
same three arguments performs zero transport writes and leaves the runtime
state unchanged, and returns a success reply with the same text and the
same state id up to integer normalization: the ids agree after int()
parsing, though the raw reply values may differ in type (wire token versus
cached integer; see the counterexample). -/
theorem C2_cache_correct {st : RState} {c : Cnt} {sid stid : Int}
    {tac : String} {r1 : Reply} {st1 : RState} {c1 : Cnt}
    (h1 : runStmt st c sid stid tac = (.ok r1, st1, c1))
    (hr : r1.error = JVal.null) :
    ∃ r2, runStmt st1 c1 sid stid tac = (.ok r2, st1, c1) ∧
      r2.error = JVal.null ∧
      pyIntE r2.tactic_state_id = pyIntE r1.tactic_state_id ∧
      r2.tactic_state = r1.tactic_state := by
  by_cases hh : (sid, stid, tac) ∈ st.hist
  · rw [runStmt, if_pos hh] at h1
    injection h1 with hA hBC
    injection hBC with hB hC
    subst hB
    subst hC
    refine ⟨r1, ?_, hr, rfl, rfl⟩
    rw [runStmt, if_pos hh, hA]
  · rw [runStmt, if_neg hh] at h1
    dsimp only at h1
    rcases hq : getResult st.queue with ⟨gr, q1⟩
    rw [hq] at h1
    cases gr with
    | error e =>
      dsimp only at h1
      injection h1 with hA hBC
      injection hA
    | ok r =>
      dsimp only at h1
      rcases hu : updateProofSearch
          { st with writes := st.writes ++ [runTacCmd sid stid tac], queue := q1 }
          c sid stid tac r with ⟨ou, st3, c3⟩
      rw [hu] at h1
      cases ou with
      | some e =>
        dsimp only at h1
        injection h1 with hA hBC
        injection hA
      | none =>
        dsimp only at h1
        injection h1 with hA hBC
        injection hBC with hB hC
        injection hA with hA
        subst hA
        subst hB
        subst hC
        obtain ⟨hmem, i, hi, hcache⟩ := cached_after_update hr hu
        refine ⟨{ error := JVal.null, search_id := JVal.jint sid,
                  tactic_state := r.tactic_state,
                  tactic_state_id := JVal.jint i }, ?_, rfl, ?_, rfl⟩
        · rw [runStmt, if_pos hmem, hcache]
        · rw [hi]
          rfl

theorem C2_cache_correct_witness :
    (runStmt C2st0 czero 0 0 "t" = (.ok C2r1, C2st1, setc czero 0 1) ∧
     C2r1.error = JVal.null) ∧
    (∃ r2, runStmt C2st1 (setc czero 0 1) 0 0 "t" =
        (.ok r2, C2st1, setc czero 0 1) ∧
      r2.error = JVal.null ∧
      pyIntE r2.tactic_state_id = pyIntE C2r1.tactic_state_id ∧
      r2.tactic_state = C2r1.tactic_state) :=
  ⟨⟨rfl, rfl⟩,
   C2_cache_correct
     (show runStmt C2st0 czero 0 0 "t" = (.ok C2r1, C2st1, setc czero 0 1)
       from rfl) rfl⟩

/-- One iteration of the run_batch reply loop on a matched reply whose
update completes without exception. -/
theorem batchLoop_step (n : Nat) {stX : RState} {c : Cnt}
    {m : List (Int × (Int × String))} {out : List (Int × Option Reply)}
    {rX : Reply} {q2 : List Line} {X sx : Int} {tx : String}
    {stY : RState} {cY : Cnt}
    (hq : stX.queue = Line.msg rX :: q2)
    (hnn : rX.search_id ≠ JVal.null)
    (hps : pyIntE rX.search_id = .ok X)
    (hm : aget m X = some (sx, tx))
    (hu : updateProofSearch { stX with queue := q2 } c X sx tx rX =
      (none, stY, cY)) :
    batchLoop stX c (n + 1) m out =
      batchLoop stY cY n (adel m X) (aset out X (some rX)) := by
  rw [batchLoop]
  rw [show getResult stX.queue = (.ok rX, q2) from by rw [hq]; rfl]
  dsimp only
  rw [if_neg hnn, hps]
  dsimp only
  rw [hm]
  dsimp only
  rw [hu]

/-- A success-branch update on a well-formed session: packaged form giving
the new session and the recorded edge. -/
theorem upd_succ_edge {st : RState} {c : Cnt} {sid prev i : Int}
    {tac : String} {r : Reply} {sess : Session} {nodePrev : Node}
    {m : List (String × Int)}
    (hr : r.error = JVal.null)
    (hi : pyIntE r.tactic_state_id = .ok i)
    (hs : aget st.proof_searchs sid = some sess)
    (hp : aget sess.states prev = some nodePrev)
    (htm : aget nodePrev "tactic_to_next_id" = some (PVal.tmap m))
    (hWF : SessWF sess) :
    ∃ sess2 node2,
      updateProofSearch st c sid prev tac r =
        (none,
         { st with proof_searchs := aset st.proof_searchs sid sess2,
                   hist := hinsert st.hist (sid, prev, tac) },
         setc c sid (c sid + 1)) ∧
      aget sess2.states prev = some node2 ∧
      aget node2 "tactic_to_next_id" = some (PVal.tmap (aset m tac i)) ∧
      sess2.n_failed_tactics = sess.n_failed_tactics ∧
      sess2.n_total_tactics = sess.n_total_tactics + 1 ∧
      sess2.failed_tactics = sess.failed_tactics := by
  cases hnew : aget (aset sess.states prev
      (aset nodePrev "tactic_to_next_id" (PVal.tmap (aset m tac i)))) i with
  | none =>
    have hne : i ≠ prev := by
      intro hh
      rw [hh, aget_aset_self] at hnew
      cases hnew
    refine ⟨_, aset nodePrev "tactic_to_next_id" (PVal.tmap (aset m tac i)),
      upd_succ_new hr hi hs hp htm hnew, ?_, aget_aset_self _ _ _, rfl, rfl, rfl⟩
    dsimp only
    rw [aget_aset_ne _ _ _ _ (Ne.symm hne)]
    exact aget_aset_self _ _ _
  | some node =>
    have hWFnode : NodeWF node := by
      rcases mem_aset_weak (aget_mem hnew) with heq | hmem
      · injection heq with h1 h2
        rw [h2]
        exact nodeWF_aset_tmap (hWF (prev, nodePrev) (aget_mem hp)) _
      · exact hWF (i, node) hmem
    obtain ⟨-, ⟨lp, hip⟩, -, -⟩ := hWFnode
    by_cases hpi : prev = i
    · have hnode : node =
          aset nodePrev "tactic_to_next_id" (PVal.tmap (aset m tac i)) := by
        rw [hpi, aget_aset_self] at hnew
        injection hnew with h4
        exact h4.symm
      refine ⟨_, aset (aset node "id_prev" (PVal.ints (lp ++ [prev])))
          "state" (PVal.jv r.tactic_state),
        upd_succ_old hr hi hs hp htm hnew hip, ?_, ?_, rfl, rfl, rfl⟩
      · dsimp only
        rw [hpi]
        exact aget_aset_self _ _ _
      · rw [aget_aset_ne _ _ _ _ (by decide),
            aget_aset_ne _ _ _ _ (by decide), hnode]
        exact aget_aset_self _ _ _
    · refine ⟨_, aset nodePrev "tactic_to_next_id" (PVal.tmap (aset m tac i)),
        upd_succ_old hr hi hs hp htm hnew hip, ?_, aget_aset_self _ _ _,
        rfl, rfl, rfl⟩
      dsimp only
      rw [aget_aset_ne _ _ _ _ hpi]
      exact aget_aset_self _ _ _

/-- C5: for a batch over two distinct sessions A and B where A's reply is a
failure (carrying A's session id) and B's reply is a success, and for either
arrival order of the two replies: the batch completes, A's error is recorded
in A's session (failed-tactic counter incremented, failed_tactics entry
written) with A's states unchanged, and B's session has the new edge
recorded under B's prior state; the output maps each session to its own
reply. -/
theorem C5_batch_isolation {st : RState} {c : Cnt} {A B sa sb i : Int}
    {ta tb : String} {rA rB : Reply} {sessA sessB : Session}
    {nodeB : Node} {mB : List (String × Int)} {restQ : List Line}
    (hAB : A ≠ B)
    (hsA : aget st.proof_searchs A = some sessA)
    (hsB : aget st.proof_searchs B = some sessB)
    (hrAe : rA.error ≠ JVal.null)
    (hrAs : pyIntE rA.search_id = .ok A)
    (hrBe : rB.error = JVal.null)
    (hrBs : pyIntE rB.search_id = .ok B)
    (hrBi : pyIntE rB.tactic_state_id = .ok i)
    (hnodeB : aget sessB.states sb = some nodeB)
    (hmB : aget nodeB "tactic_to_next_id" = some (PVal.tmap mB))
    (hWFB : SessWF sessB)
    (horder : st.queue = [Line.msg rA, Line.msg rB] ++ restQ ∨
              st.queue = [Line.msg rB, Line.msg rA] ++ restQ) :
    ∃ out st2 c2,
      runBatch st c [A, B] [sa, sb] [ta, tb] = (.ok out, st2, c2) ∧
      aget out A = some (some rA) ∧
      aget out B = some (some rB) ∧
      (∃ sessA2, aget st2.proof_searchs A = some sessA2 ∧
        sessA2.states = sessA.states ∧
        sessA2.n_failed_tactics = sessA.n_failed_tactics + 1 ∧
        sessA2.n_total_tactics = sessA.n_total_tactics + 1 ∧
        sessA2.failed_tactics = aset sessA.failed_tactics ta rA.error) ∧
      (∃ sessB2 nodeB2, aget st2.proof_searchs B = some sessB2 ∧
        aget sessB2.states sb = some nodeB2 ∧
        aget nodeB2 "tactic_to_next_id" = some (PVal.tmap (aset mB tb i)) ∧
        sessB2.n_failed_tactics = sessB.n_failed_tactics ∧
        sessB2.n_total_tactics = sessB.n_total_tactics + 1) := by
  have hnnA : rA.search_id ≠ JVal.null := by
    intro hh
    rw [hh] at hrAs
    simp [pyIntE] at hrAs
  have hnnB : rB.search_id ≠ JVal.null := by
    intro hh
    rw [hh] at hrBs
    simp [pyIntE] at hrBs
  have hnd : ([A, B] : List Int).Nodup := by simp [hAB]
  have hm1 : aget [(A, (sa, ta)), (B, (sb, tb))] A = some (sa, ta) := by
    simp [aget]
  have hm2 : adel [(A, (sa, ta)), (B, (sb, tb))] A = [(B, (sb, tb))] := by
    simp [adel]
  have hm3 : aget [(B, (sb, tb))] B = some (sb, tb) := by simp [aget]
  have hm4 : adel [(B, (sb, tb))] B = ([] : List (Int × (Int × String))) := by
    simp [adel]
  have hm5 : aget [(A, (sa, ta)), (B, (sb, tb))] B = some (sb, tb) := by
    simp [aget, hAB]
  have hm6 : adel [(A, (sa, ta)), (B, (sb, tb))] B = [(A, (sa, ta))] := by
    simp [adel, hAB]
  have hm7 : aget [(A, (sa, ta))] A = some (sa, ta) := by simp [aget]
  have hm8 : adel [(A, (sa, ta))] A = ([] : List (Int × (Int × String))) := by
    simp [adel]
  have ho1 : aset [(A, (none : Option Reply)), (B, none)] A (some rA) =
      [(A, some rA), (B, none)] := by simp [aset]
  have ho2 : aset [(A, some rA), (B, (none : Option Reply))] B (some rB) =
      [(A, some rA), (B, some rB)] := by simp [aset, hAB]
  have ho3 : aset [(A, (none : Option Reply)), (B, none)] B (some rB) =
      [(A, none), (B, some rB)] := by simp [aset, hAB]
  have ho4 : aset [(A, (none : Option Reply)), (B, some rB)] A (some rA) =
      [(A, some rA), (B, some rB)] := by simp [aset]
  rw [runBatch, if_pos hnd]
  rw [show sendCmds st (zip3 [A, B] [sa, sb] [ta, tb]) =
      ({ st with writes := st.writes ++ [runTacCmd A sa ta] ++ [runTacCmd B sb tb] },
       [(A, (sa, ta)), (B, (sb, tb))]) from rfl]
  rw [show ([A, B] : List Int).length = 1 + 1 from rfl]
  dsimp only
  simp only [List.map_cons, List.map_nil]
  rcases horder with hq | hq
  · -- arrival order: A's failure reply first, then B's success reply
    have huA := @upd_fail
      ({ st with
          writes := st.writes ++ [runTacCmd A sa ta] ++ [runTacCmd B sb tb],
          queue := Line.msg rB :: restQ })
      c A sa ta rA sessA hrAe hsA
    rw [batchLoop_step 1
      (show ({ st with
          writes := st.writes ++ [runTacCmd A sa ta] ++ [runTacCmd B sb tb] } :
          RState).queue = Line.msg rA :: (Line.msg rB :: restQ) from hq)
      hnnA hrAs hm1 huA]
    rw [hm2, ho1, show (1 : Nat) = 0 + 1 from rfl]
    have hsB2 : aget (aset st.proof_searchs A
        ({ sessA with n_failed_tactics := sessA.n_failed_tactics + 1,
                      failed_tactics := aset sessA.failed_tactics ta rA.error,
                      n_total_tactics := sessA.n_total_tactics + 1 })) B =
        some sessB := by
      rw [aget_aset_ne _ _ _ _ (Ne.symm hAB)]
      exact hsB
    obtain ⟨sessB2, nodeB2, huB, eB1, eB2, eB4, eB5, eB6⟩ :=
      @upd_succ_edge
        ({ st with
            writes := st.writes ++ [runTacCmd A sa ta] ++ [runTacCmd B sb tb],
            queue := restQ,
            proof_searchs := aset st.proof_searchs A
              ({ sessA with n_failed_tactics := sessA.n_failed_tactics + 1,
                            failed_tactics := aset sessA.failed_tactics ta rA.error,
                            n_total_tactics := sessA.n_total_tactics + 1 }) })
        c B sb i tb rB sessB nodeB mB hrBe hrBi hsB2 hnodeB hmB hWFB
    rw [batchLoop_step 0
      (show ({ st with
          writes := st.writes ++ [runTacCmd A sa ta] ++ [runTacCmd B sb tb],
          queue := Line.msg rB :: restQ,
          proof_searchs := aset st.proof_searchs A
            ({ sessA with n_failed_tactics := sessA.n_failed_tactics + 1,
                          failed_tactics := aset sessA.failed_tactics ta rA.error,
                          n_total_tactics := sessA.n_total_tactics + 1 }) } :
          RState).queue = Line.msg rB :: restQ from rfl)
      hnnB hrBs hm3 huB]
    rw [hm4, ho2]
    rw [batchLoop]
    dsimp only
    rw [bumpLeftovers]
    dsimp only
    refine ⟨_, _, _, rfl, ?_, ?_, ?_, ?_⟩
    · simp [aget]
    · simp [aget, hAB]
    · refine
        ⟨{ sessA with
             n_failed_tactics := sessA.n_failed_tactics + 1,
             failed_tactics := aset sessA.failed_tactics ta rA.error,
             n_total_tactics := sessA.n_total_tactics + 1 },
         ?_, rfl, rfl, rfl, rfl⟩
      dsimp only
      rw [aget_aset_ne _ _ _ _ hAB, aget_aset_self]
    · refine ⟨sessB2, nodeB2, ?_, eB1, eB2, eB4, eB5⟩
      dsimp only
      rw [aget_aset_self]
  · -- arrival order: B's success reply first, then A's failure reply
    obtain ⟨sessB2, nodeB2, huB, eB1, eB2, eB4, eB5, eB6⟩ :=
      @upd_succ_edge
        ({ st with
            writes := st.writes ++ [runTacCmd A sa ta] ++ [runTacCmd B sb tb],
            queue := Line.msg rA :: restQ })
        c B sb i tb rB sessB nodeB mB hrBe hrBi hsB hnodeB hmB hWFB
    rw [batchLoop_step 1
      (show ({ st with
          writes := st.writes ++ [runTacCmd A sa ta] ++ [runTacCmd B sb tb] } :
          RState).queue = Line.msg rB :: (Line.msg rA :: restQ) from hq)
      hnnB hrBs hm5 huB]
    rw [hm6, ho3, show (1 : Nat) = 0 + 1 from rfl]
    have hsA2 : aget (aset st.proof_searchs B sessB2) A = some sessA := by
      rw [aget_aset_ne _ _ _ _ hAB]
      exact hsA
    have huA := @upd_fail
      ({ st with
          writes := st.writes ++ [runTacCmd A sa ta] ++ [runTacCmd B sb tb],
          queue := restQ,
          proof_searchs := aset st.proof_searchs B sessB2,
          hist := hinsert st.hist (B, sb, tb) })
      (setc c B (c B + 1)) A sa ta rA sessA hrAe hsA2
    rw [batchLoop_step 0
      (show ({ st with
          writes := st.writes ++ [runTacCmd A sa ta] ++ [runTacCmd B sb tb],
          queue := Line.msg rA :: restQ,
          proof_searchs := aset st.proof_searchs B sessB2,
          hist := hinsert st.hist (B, sb, tb) } :
          RState).queue = Line.msg rA :: restQ from rfl)
      hnnA hrAs hm7 huA]
    rw [hm8, ho4]
    rw [batchLoop]
    dsimp only
    rw [bumpLeftovers]
    dsimp only
    refine ⟨_, _, _, rfl, ?_, ?_, ?_, ?_⟩
    · simp [aget]
    · simp [aget, hAB]
    · refine
        ⟨{ sessA with
             n_failed_tactics := sessA.n_failed_tactics + 1,
             failed_tactics := aset sessA.failed_tactics ta rA.error,
             n_total_tactics := sessA.n_total_tactics + 1 },
         ?_, rfl, rfl, rfl, rfl⟩
      dsimp only
      rw [aget_aset_self]
    · refine ⟨sessB2, nodeB2, ?_, eB1, eB2, eB4, eB5⟩
      dsimp only
      rw [aget_aset_ne _ _ _ _ (Ne.symm hAB), aget_aset_self]

theorem C5_sessB_wf : SessWF C5sessB := by
  intro p hp
  simp only [C5sessB, List.mem_singleton] at hp
  subst hp
  exact ⟨by decide, ⟨[], rfl⟩, ⟨JVal.jstr "G", rfl⟩, ⟨[], rfl⟩⟩

theorem C5_batch_isolation_witness :
    ((0 : Int) ≠ 2 ∧ aget C5st.proof_searchs 0 = some C5sessA ∧
     aget C5st.proof_searchs 2 = some C5sessB ∧ C5rA.error ≠ JVal.null ∧
     C5rB.error = JVal.null ∧ SessWF C5sessB ∧
     C5st.queue = [Line.msg C5rA, Line.msg C5rB] ++ []) ∧
    (∃ out st2 c2,
      runBatch C5st czero [0, 2] [0, 0] ["tac_a", "tac_b"] =
        (.ok out, st2, c2) ∧
      aget out 0 = some (some C5rA) ∧
      aget out 2 = some (some C5rB) ∧
      (∃ sessA2, aget st2.proof_searchs 0 = some sessA2 ∧
        sessA2.states = C5sessA.states ∧
        sessA2.n_failed_tactics = C5sessA.n_failed_tactics + 1 ∧
        sessA2.n_total_tactics = C5sessA.n_total_tactics + 1 ∧
        sessA2.failed_tactics = aset C5sessA.failed_tactics "tac_a" C5rA.error) ∧
      (∃ sessB2 nodeB2, aget st2.proof_searchs 2 = some sessB2 ∧
        aget sessB2.states 0 = some nodeB2 ∧
        aget nodeB2 "tactic_to_next_id" = some (PVal.tmap (aset [] "tac_b" 5)) ∧
        sessB2.n_failed_tactics = C5sessB.n_failed_tactics ∧
        sessB2.n_total_tactics = C5sessB.n_total_tactics + 1)) :=
  ⟨⟨by decide, rfl, rfl, by decide, rfl, C5_sessB_wf, rfl⟩,
   @C5_batch_isolation C5st czero 0 2 0 0 5 "tac_a" "tac_b" C5rA C5rB
     C5sessA C5sessB C5nodeB [] [] (by decide) rfl rfl (by decide) rfl rfl
     rfl rfl rfl rfl C5_sessB_wf (Or.inl rfl)⟩
